import Mathlib

/-!
# sbercloud-dns-acme-helper: a shallow embedding of `main.go`

The helper is an ACME DNS-01 hook.  It resolves an optional project, resolves the
DNS zone of a fully-qualified domain name, and then creates (`present`) or removes
(`cleanup`) one TXT recordset through the provider's REST interface.

Everything outside `main.go` is a parameter of the model, collected in `World`:
the process environment, the HTTP round trip (request construction, signing,
transport and body read), `json.Unmarshal` at the three response types, and
`publicsuffix.EffectiveTLDPlusOne`.  A Go string that is valid UTF-8 is the Lean
string with that encoding, and `fmt.Sprintf` with `%s` verbs is concatenation; the
request body of `Present` is also given byte by byte, for arguments that are not
valid UTF-8.
-/

set_option autoImplicit false
set_option linter.dupNamespace false

namespace SbercloudDns

/-! ## Data model (`main.go` lines 19-49) -/

/-- Go `type Project struct`. -/
structure Project where
  Id : String
  Enabled : Bool
  Name : String
  deriving DecidableEq, Repr

/-- Go `type Projects struct`. -/
structure Projects where
  Projects : List Project
  deriving DecidableEq, Repr

/-- Go `type Zone struct`. -/
structure Zone where
  Id : String
  Name : String
  Status : String
  deriving DecidableEq, Repr

/-- Go `type Zones struct`. -/
structure Zones where
  Zones : List Zone
  deriving DecidableEq, Repr

/-- Go `type Record struct`.  The field `Records` is a `[]string`; a nil slice and an
empty slice are both the empty list, which is sound here because the only use of the
field is a `reflect.DeepEqual` against a one-element slice.  `Type_` is the Go field
`Type`, a reserved word in Lean. -/
structure Record where
  Id : String
  Name : String
  Type_ : String
  Records : List String
  Status : String
  deriving DecidableEq, Repr

/-- Go `type Records struct` (JSON key `recordsets`). -/
structure Records where
  Records : List Record
  deriving DecidableEq, Repr

/-- Go `core.Signer`, as far as `main.go` builds it: the two credentials. -/
structure Signer where
  Key : String
  Secret : String
  deriving DecidableEq, Repr

/-! ## Effects -/

/-- One invocation of `CallApi`, recorded with its arguments. -/
structure Call where
  method : String
  endpoint : String
  projectId : String
  payload : String
  signer : Signer
  deriving DecidableEq, Repr

/-- What the HTTP round trip inside `CallApi` can do.  `nilRequest`: `http.NewRequest`
failed, its error is discarded (`r, _ :=`) and the nil request is dereferenced.
`transportError`: `client.Do` or `ioutil.ReadAll` returned an error.  `body`: the
response body was read, whatever the status code. -/
inductive Reply where
  | body (b : String)
  | transportError (e : String)
  | nilRequest
  deriving DecidableEq, Repr

/-- The two run-time panics `main.go` can raise. -/
inductive Panic where
  | indexOutOfRange (index length : Nat)
  | nilDereference
  deriving DecidableEq, Repr

/-- Result of a Go function returning `(T, error)` that may also panic. -/
inductive Result (α : Type) where
  | ok (a : α)
  | error (e : String)
  | panic (p : Panic)
  deriving DecidableEq, Repr

/-- The collaborators of `main.go`.  `Do` sees the calls already made in this run, so
any behaviour of the provider over one run is some `World`. -/
structure World where
  Getenv : String → String
  Do : List Call → Call → Reply
  UnmarshalProjects : String → Projects
  UnmarshalZones : String → Zones
  UnmarshalRecords : String → Records
  EffectiveTLDPlusOne : String → Except String String

/-- Go `strings.TrimRight(s, cutset)`: drop every trailing code point that is in
`cutset`. -/
def TrimRight (s cutset : String) : String :=
  String.mk (s.data.reverse.dropWhile (fun c => cutset.data.contains c)).reverse

/-- Go `CallApi` (lines 51-73).  The invocation is appended to the call log; headers,
signing and transport are the world's `Do`. -/
def CallApi (w : World) (method endpoint projectId payload : String) (s : Signer)
    (log : List Call) : Result String × List Call :=
  let c : Call := ⟨method, endpoint, projectId, payload, s⟩
  match w.Do log c with
  | Reply.nilRequest => (Result.panic Panic.nilDereference, log ++ [c])
  | Reply.transportError e => (Result.error e, log ++ [c])
  | Reply.body b => (Result.ok b, log ++ [c])

/-- The `for` loop of `GetProjectId` (lines 84-89), by recursion on the slice. -/
def GetProjectId.scan (projectName : String) : List Project → Result String
  | [] => Result.error ("no active project named '" ++ projectName ++ "' found")
  | p :: ps =>
    if p.Enabled = true ∧ p.Name = projectName then Result.ok p.Id
    else GetProjectId.scan projectName ps

/-- Go `GetProjectId` (lines 75-90). -/
def GetProjectId (w : World) (authEndpoint projectName : String) (s : Signer)
    (log : List Call) : Result String × List Call :=
  match CallApi w "GET" (authEndpoint ++ "/v3/projects") "" "" s log with
  | (Result.ok result, log1) =>
    (GetProjectId.scan projectName (w.UnmarshalProjects result).Projects, log1)
  | (Result.error e, log1) => (Result.error e, log1)
  | (Result.panic p, log1) => (Result.panic p, log1)

/-- The `for` loop of `GetZoneId` (lines 101-106), by recursion on the slice. -/
def GetZoneId.scan (zoneName : String) : List Zone → Result String
  | [] => Result.error ("no active '" ++ TrimRight zoneName "." ++ "' zone found")
  | z :: zs =>
    if z.Status = "ACTIVE" ∧ z.Name = zoneName then Result.ok z.Id
    else GetZoneId.scan zoneName zs

/-- Go `GetZoneId` (lines 92-107). -/
def GetZoneId (w : World) (dnsEndpoint zoneName projectId : String) (s : Signer)
    (log : List Call) : Result String × List Call :=
  match CallApi w "GET" (dnsEndpoint ++ "/v2/zones") projectId "" s log with
  | (Result.ok result, log1) =>
    (GetZoneId.scan zoneName (w.UnmarshalZones result).Zones, log1)
  | (Result.error e, log1) => (Result.error e, log1)
  | (Result.panic p, log1) => (Result.panic p, log1)

/-- The `if` condition of the loop of `GetRecordId` (lines 119-122). -/
def GetRecordId.cond (fqdn challenge : String) (r : Record) : Prop :=
  r.Status = "ACTIVE" ∧ r.Name = fqdn ∧ r.Type_ = "TXT" ∧
    r.Records = ["\"" ++ challenge ++ "\""]

instance (fqdn challenge : String) (r : Record) :
    Decidable (GetRecordId.cond fqdn challenge r) := by
  unfold GetRecordId.cond; infer_instance

/-- The `for` loop of `GetRecordId` (lines 118-126), by recursion on the slice. -/
def GetRecordId.scan (fqdn challenge : String) : List Record → Result String
  | [] => Result.error ("no active record '" ++ fqdn ++ "' of type 'TXT' with value '"
      ++ challenge ++ "' found")
  | r :: rs =>
    if GetRecordId.cond fqdn challenge r then Result.ok r.Id
    else GetRecordId.scan fqdn challenge rs

/-- Go `GetRecordId` (lines 109-127). -/
def GetRecordId (w : World) (dnsEndpoint zoneId projectId fqdn challenge : String)
    (s : Signer) (log : List Call) : Result String × List Call :=
  match CallApi w "GET" (dnsEndpoint ++ "/v2/zones/" ++ zoneId ++ "/recordsets")
      projectId "" s log with
  | (Result.ok result, log1) =>
    (GetRecordId.scan fqdn challenge (w.UnmarshalRecords result).Records, log1)
  | (Result.error e, log1) => (Result.error e, log1)
  | (Result.panic p, log1) => (Result.panic p, log1)

/-- The payload `Present` formats (line 130). -/
def Present.payload (fqdn challenge : String) : String :=
  "\x7b\"name\":\"" ++ fqdn ++ "\",\"type\":\"TXT\",\"records\":[\"\\\"" ++ challenge
    ++ "\\\"\"]\x7d"

/-- Go `Present` (lines 129-137). -/
def Present (w : World) (dnsEndpoint zoneId projectId fqdn challenge : String)
    (s : Signer) (log : List Call) : Result String × List Call :=
  CallApi w "POST" (dnsEndpoint ++ "/v2/zones/" ++ zoneId ++ "/recordsets") projectId
    (Present.payload fqdn challenge) s log

/-- Go `Cleanup` (lines 139-151). -/
def Cleanup (w : World) (dnsEndpoint zoneId projectId fqdn challenge : String)
    (s : Signer) (log : List Call) : Result String × List Call :=
  match GetRecordId w dnsEndpoint zoneId projectId fqdn challenge s log with
  | (Result.ok recordId, log1) =>
    CallApi w "DELETE" (dnsEndpoint ++ "/v2/zones/" ++ zoneId ++ "/recordsets/" ++ recordId)
      projectId "" s log1
  | (Result.error e, log1) => (Result.error e, log1)
  | (Result.panic p, log1) => (Result.panic p, log1)

/-! ## Entry point -/

/-- How a run of the process ends: `os.Exit(status)` (falling off the end of `main`
is status 0) or an unrecovered panic. -/
inductive Termination where
  | exit (status : Nat)
  | panic (p : Panic)
  deriving DecidableEq, Repr

/-- The exit status the operating system sees; the Go runtime ends a panicking
process with status 2. -/
def Termination.status : Termination → Nat
  | Termination.exit n => n
  | Termination.panic _ => 2

/-- One run of the process: how it ended, the lines written to standard output by
`fmt.Println`, and the `CallApi` invocations in order. -/
structure Run where
  termination : Termination
  stdout : List String
  calls : List Call
  deriving DecidableEq, Repr

/-- The signer `main` builds (lines 155-158). -/
def main.signer (w : World) : Signer :=
  ⟨w.Getenv "SBC_ACCESS_KEY", w.Getenv "SBC_SECRET_KEY"⟩

/-- The identity endpoint `main` builds (line 160). -/
def main.authEndpoint (w : World) : String :=
  "https://iam." ++ w.Getenv "SBC_REGION_NAME" ++ ".hc.sbercloud.ru"

/-- The DNS endpoint `main` builds (line 161). -/
def main.dnsEndpoint (w : World) : String :=
  "https://dns." ++ w.Getenv "SBC_REGION_NAME" ++ ".hc.sbercloud.ru"

/-- Go `main` (lines 153-202).  `Args` is `os.Args`; `Args[i]? = none` is the
index-out-of-range panic of `os.Args[i]`.  Every `if err != nil` block prints the
error and exits with status 1.  The arguments of `Present(...)` and `Cleanup(...)` are
evaluated before the call, so a missing `os.Args[3]` panics before any request. -/
def main (w : World) (Args : List String) : Run :=
  match (if w.Getenv "SBC_PROJECT_NAME" ≠ "" then
      GetProjectId w (main.authEndpoint w) (w.Getenv "SBC_PROJECT_NAME") (main.signer w) []
    else (Result.ok "", [])) with
  | (Result.error e, log1) => ⟨Termination.exit 1, [e], log1⟩
  | (Result.panic p, log1) => ⟨Termination.panic p, [], log1⟩
  | (Result.ok projectId, log1) =>
    match Args[2]? with
    | none => ⟨Termination.panic (Panic.indexOutOfRange 2 Args.length), [], log1⟩
    | some fqdn =>
      match w.EffectiveTLDPlusOne (TrimRight fqdn ".") with
      | Except.error e => ⟨Termination.exit 1, [e], log1⟩
      | Except.ok zoneName =>
        match GetZoneId w (main.dnsEndpoint w) (zoneName ++ ".") projectId (main.signer w)
            log1 with
        | (Result.error e, log2) => ⟨Termination.exit 1, [e], log2⟩
        | (Result.panic p, log2) => ⟨Termination.panic p, [], log2⟩
        | (Result.ok zoneId, log2) =>
          match Args[1]? with
          | none => ⟨Termination.panic (Panic.indexOutOfRange 1 Args.length), [], log2⟩
          | some cmd =>
            if cmd = "present" then
              match Args[3]? with
              | none => ⟨Termination.panic (Panic.indexOutOfRange 3 Args.length), [], log2⟩
              | some challenge =>
                match Present w (main.dnsEndpoint w) zoneId projectId fqdn challenge
                    (main.signer w) log2 with
                | (Result.error e, log3) => ⟨Termination.exit 1, [e], log3⟩
                | (Result.panic p, log3) => ⟨Termination.panic p, [], log3⟩
                | (Result.ok _, log3) => ⟨Termination.exit 0, [], log3⟩
            else if cmd = "cleanup" then
              match Args[3]? with
              | none => ⟨Termination.panic (Panic.indexOutOfRange 3 Args.length), [], log2⟩
              | some challenge =>
                match Cleanup w (main.dnsEndpoint w) zoneId projectId fqdn challenge
                    (main.signer w) log2 with
                | (Result.error e, log3) => ⟨Termination.exit 1, [e], log3⟩
                | (Result.panic p, log3) => ⟨Termination.panic p, [], log3⟩
                | (Result.ok _, log3) => ⟨Termination.exit 0, [], log3⟩
            else ⟨Termination.exit 0, [], log2⟩

/-! ### Named fragments of `main`, used to state properties of its stages -/

/-- Lines 163-171 of `main`: the project id, looked up only when a project name is
configured. -/
def main.project (w : World) : Result String × List Call :=
  if w.Getenv "SBC_PROJECT_NAME" ≠ "" then
    GetProjectId w (main.authEndpoint w) (w.Getenv "SBC_PROJECT_NAME") (main.signer w) []
  else (Result.ok "", [])

/-- Lines 173-181 of `main`: the zone name derived from `os.Args[2]`. -/
def main.zoneName (w : World) (Args : List String) : Result String :=
  match Args[2]? with
  | none => Result.panic (Panic.indexOutOfRange 2 Args.length)
  | some fqdn =>
    match w.EffectiveTLDPlusOne (TrimRight fqdn ".") with
    | Except.error e => Result.error e
    | Except.ok zoneName => Result.ok (zoneName ++ ".")

/-- Lines 163-186 of `main`: project lookup, zone-name derivation and zone lookup.
Yields the project id and the zone id the `switch` then works with. -/
def main.resolve (w : World) (Args : List String) : Result (String × String) × List Call :=
  match main.project w with
  | (Result.error e, log1) => (Result.error e, log1)
  | (Result.panic p, log1) => (Result.panic p, log1)
  | (Result.ok projectId, log1) =>
    match main.zoneName w Args with
    | Result.error e => (Result.error e, log1)
    | Result.panic p => (Result.panic p, log1)
    | Result.ok zoneName =>
      match GetZoneId w (main.dnsEndpoint w) zoneName projectId (main.signer w) log1 with
      | (Result.error e, log2) => (Result.error e, log2)
      | (Result.panic p, log2) => (Result.panic p, log2)
      | (Result.ok zoneId, log2) => (Result.ok (projectId, zoneId), log2)

/-- Lines 188-201 of `main`: the `switch` on `os.Args[1]`, run with the resolved
ids. -/
def main.dispatch (w : World) (Args : List String) (projectId zoneId : String)
    (log : List Call) : Result String × List Call :=
  match Args[1]?, Args[2]? with
  | some cmd, some fqdn =>
    if cmd = "present" then
      match Args[3]? with
      | none => (Result.panic (Panic.indexOutOfRange 3 Args.length), log)
      | some challenge =>
        Present w (main.dnsEndpoint w) zoneId projectId fqdn challenge (main.signer w) log
    else if cmd = "cleanup" then
      match Args[3]? with
      | none => (Result.panic (Panic.indexOutOfRange 3 Args.length), log)
      | some challenge =>
        Cleanup w (main.dnsEndpoint w) zoneId projectId fqdn challenge (main.signer w) log
    else (Result.ok "", log)
  | some _, none => (Result.panic (Panic.indexOutOfRange 2 Args.length), log)
  | none, _ => (Result.panic (Panic.indexOutOfRange 1 Args.length), log)

/-- What `main` does with the outcome of a stage: an error is printed and the process
exits with status 1, a panic unwinds, and after the last stage success is a silent
return. -/
def main.report {α : Type} : Result α × List Call → Run
  | (Result.ok _, log) => ⟨Termination.exit 0, [], log⟩
  | (Result.error e, log) => ⟨Termination.exit 1, [e], log⟩
  | (Result.panic p, log) => ⟨Termination.panic p, [], log⟩

/-! ## JSON text

The request body of `Present` is meant to be JSON.  To say what it decodes to, JSON
text is read here by the grammar of RFC 8259, the way JSON decoders (Go's
`encoding/json` among them) do: insignificant whitespace, the six kinds of value,
string escapes including `\u` with surrogate pairs, and no control character inside a
string.  It is not part of `main.go`. -/

/-- A JSON value (RFC 8259); a number keeps its text. -/
inductive JSON where
  | null
  | bool (b : Bool)
  | number (text : String)
  | string (s : String)
  | array (items : List JSON)
  | object (members : List (String × JSON))

namespace JSON

/-- Insignificant whitespace. -/
def isWs (c : Char) : Bool := c = ' ' || c = '\t' || c = '\n' || c = '\r'

/-- Drop leading whitespace. -/
def skipWs (cs : List Char) : List Char := cs.dropWhile isWs

/-- Value of a hexadecimal digit. -/
def hexVal (c : Char) : Option Nat :=
  if '0' ≤ c ∧ c ≤ '9' then some (c.toNat - 48)
  else if 'a' ≤ c ∧ c ≤ 'f' then some (c.toNat - 87)
  else if 'A' ≤ c ∧ c ≤ 'F' then some (c.toNat - 55)
  else none

/-- The character a one-letter escape stands for. -/
def unescape (c : Char) : Option Nat :=
  if c = '"' then some 34
  else if c = '\\' then some 92
  else if c = '/' then some 47
  else if c = 'b' then some 8
  else if c = 'f' then some 12
  else if c = 'n' then some 10
  else if c = 'r' then some 13
  else if c = 't' then some 9
  else none

/-- Where the scan of a string literal stands: in plain text, right after a
backslash, or inside the four hexadecimal digits of a `\u` escape. -/
inductive StrState where
  | plain
  | escape
  | hex (digits : List Nat)

/-- Scan a string literal after its opening quote, up to and including the closing
quote.  Yields the code units read (a plain character is its code point, a `\u`
escape its 16-bit value) and the text left. -/
def scanString : StrState → List Nat → List Char → Option (List Nat × List Char)
  | _, _, [] => none
  | StrState.plain, acc, c :: cs =>
    if c = '"' then some (acc.reverse, cs)
    else if c = '\\' then scanString StrState.escape acc cs
    else if c.toNat < 32 then none
    else scanString StrState.plain (c.toNat :: acc) cs
  | StrState.escape, acc, c :: cs =>
    if c = 'u' then scanString (StrState.hex []) acc cs
    else
      match unescape c with
      | some u => scanString StrState.plain (u :: acc) cs
      | none => none
  | StrState.hex ds, acc, c :: cs =>
    match hexVal c with
    | none => none
    | some d =>
      if ds.length = 3 then
        scanString StrState.plain ((ds ++ [d]).foldl (fun n x => 16 * n + x) 0 :: acc) cs
      else scanString (StrState.hex (ds ++ [d])) acc cs

/-- One code unit outside a surrogate pair: a lone surrogate becomes U+FFFD. -/
def unitChar (u : Nat) : Char :=
  if 0xD800 ≤ u ∧ u < 0xE000 then Char.ofNat 0xFFFD else Char.ofNat u

/-- Turn the code units of a string literal into characters, joining each surrogate
pair; `pending` is a high surrogate still waiting for its low half. -/
def decodeUnits : Option Nat → List Nat → List Char
  | none, [] => []
  | some _, [] => [Char.ofNat 0xFFFD]
  | none, u :: us =>
    if 0xD800 ≤ u ∧ u < 0xDC00 then decodeUnits (some u) us
    else unitChar u :: decodeUnits none us
  | some hi, u :: us =>
    if 0xDC00 ≤ u ∧ u < 0xE000 then
      Char.ofNat (0x10000 + (hi - 0xD800) * 0x400 + (u - 0xDC00)) :: decodeUnits none us
    else if 0xD800 ≤ u ∧ u < 0xDC00 then Char.ofNat 0xFFFD :: decodeUnits (some u) us
    else Char.ofNat 0xFFFD :: unitChar u :: decodeUnits none us

/-- The string a scanned literal denotes. -/
def unitsString (us : List Nat) : String := String.mk (decodeUnits none us)

/-- Split off the longest run of decimal digits. -/
def digits (cs : List Char) : List Char × List Char := cs.span Char.isDigit

/-- Scan a number: `[-] int [frac] [exp]`.  Yields its text and the text left. -/
def scanNumber (cs : List Char) : Option (List Char × List Char) :=
  let (sign, r0) := match cs with
    | '-' :: r => (['-'], r)
    | _ => ([], cs)
  let (int, r1) := digits r0
  if int = [] ∨ (int.head? = some '0' ∧ int.length ≠ 1) then none
  else
    let fracPart : Option (List Char × List Char) :=
      match r1 with
      | '.' :: r =>
        let (fr, r2) := digits r
        if fr = [] then none else some ('.' :: fr, r2)
      | _ => some ([], r1)
    match fracPart with
    | none => none
    | some (frac, r2) =>
      let expPart : Option (List Char × List Char) :=
        match r2 with
        | e :: r =>
          if e = 'e' ∨ e = 'E' then
            let (sg, r3) := match r with
              | '+' :: r' => (['+'], r')
              | '-' :: r' => (['-'], r')
              | _ => ([], r)
            let (ex, r4) := digits r3
            if ex = [] then none else some (e :: sg ++ ex, r4)
          else some ([], r2)
        | [] => some ([], r2)
      match expPart with
      | none => none
      | some (ex, r4) => some (sign ++ int ++ frac ++ ex, r4)

mutual

/-- Parse one value, with `fuel` bounding the nesting and the number of elements. -/
def parseValue : Nat → List Char → Option (JSON × List Char)
  | 0, _ => none
  | fuel + 1, cs =>
    match skipWs cs with
    | [] => none
    | c :: rest =>
      if c = '"' then
        match scanString StrState.plain [] rest with
        | some (u, r) => some (JSON.string (unitsString u), r)
        | none => none
      else if c = '[' then
        match skipWs rest with
        | ']' :: r => some (JSON.array [], r)
        | _ =>
          match parseElements fuel rest [] with
          | some (vs, r) => some (JSON.array vs, r)
          | none => none
      else if c = '{' then
        match skipWs rest with
        | '}' :: r => some (JSON.object [], r)
        | _ =>
          match parseMembers fuel rest [] with
          | some (ms, r) => some (JSON.object ms, r)
          | none => none
      else if c = 't' then
        match rest with
        | 'r' :: 'u' :: 'e' :: r => some (JSON.bool true, r)
        | _ => none
      else if c = 'f' then
        match rest with
        | 'a' :: 'l' :: 's' :: 'e' :: r => some (JSON.bool false, r)
        | _ => none
      else if c = 'n' then
        match rest with
        | 'u' :: 'l' :: 'l' :: r => some (JSON.null, r)
        | _ => none
      else
        match scanNumber (c :: rest) with
        | some (t, r) => some (JSON.number (String.mk t), r)
        | none => none

/-- Parse the elements of an array after `[`, up to and including `]`. -/
def parseElements : Nat → List Char → List JSON → Option (List JSON × List Char)
  | 0, _, _ => none
  | fuel + 1, cs, acc =>
    match parseValue fuel cs with
    | none => none
    | some (v, r) =>
      match skipWs r with
      | ',' :: r2 => parseElements fuel r2 (v :: acc)
      | ']' :: r2 => some ((v :: acc).reverse, r2)
      | _ => none

/-- Parse the members of an object after `{`, up to and including `}`. -/
def parseMembers : Nat → List Char → List (String × JSON) →
    Option (List (String × JSON) × List Char)
  | 0, _, _ => none
  | fuel + 1, cs, acc =>
    match skipWs cs with
    | '"' :: r0 =>
      match scanString StrState.plain [] r0 with
      | none => none
      | some (k, r1) =>
        match skipWs r1 with
        | ':' :: r2 =>
          match parseValue fuel r2 with
          | none => none
          | some (v, r3) =>
            match skipWs r3 with
            | ',' :: r4 => parseMembers fuel r4 ((unitsString k, v) :: acc)
            | '}' :: r4 => some (((unitsString k, v) :: acc).reverse, r4)
            | _ => none
        | _ => none
    | _ => none

end

/-- Parse a JSON text: one value, with nothing but whitespace after it. -/
def parse (s : String) : Option JSON :=
  match parseValue (s.length + 1) s.data with
  | some (v, r) => if skipWs r = [] then some v else none
  | none => none

end JSON

/-- A character that stands for itself inside a JSON string literal: not the quote,
not the backslash, not a control character. -/
def JSON.plainChar (c : Char) : Prop := c ≠ '"' ∧ c ≠ '\\' ∧ 32 ≤ c.toNat

instance (c : Char) : Decidable (JSON.plainChar c) := by
  unfold JSON.plainChar; infer_instance

/-! ## The request body as bytes

A Go string is a sequence of bytes, and `fmt.Sprintf` copies the bytes of its `%s`
arguments.  Elsewhere in this file a Go string that is valid UTF-8 is the Lean string
with that encoding; here, where the body is handed to a JSON decoder, the bytes are
spelled out.  A JSON decoder reads the body as UTF-8, and a byte that is not part of a
well-formed sequence is read as U+FFFD (Go's `encoding/json` does so inside string
literals; outside them such a byte is a syntax error either way). -/

/-- The UTF-8 encoding of one character, as a list of byte values. -/
def utf8EncodeChar (c : Char) : List Nat :=
  if c.toNat < 0x80 then [c.toNat]
  else if c.toNat < 0x800 then [0xC0 + c.toNat / 64, 0x80 + c.toNat % 64]
  else if c.toNat < 0x10000 then
    [0xE0 + c.toNat / 4096, 0x80 + c.toNat / 64 % 64, 0x80 + c.toNat % 64]
  else
    [0xF0 + c.toNat / 262144, 0x80 + c.toNat / 4096 % 64, 0x80 + c.toNat / 64 % 64,
      0x80 + c.toNat % 64]

/-- The UTF-8 encoding of a list of characters. -/
def utf8EncodeChars : List Char → List Nat
  | [] => []
  | c :: cs => utf8EncodeChar c ++ utf8EncodeChars cs

/-- The bytes of a Go string that holds the text `s`. -/
def utf8Encode (s : String) : List Nat := utf8EncodeChars s.data

/-- A multi-byte sequence read in part: the bits so far, the number of continuation
bytes still expected, the range accepted for the next byte, and the bytes read. -/
structure Utf8Pending where
  value : Nat
  need : Nat
  lo : Nat
  hi : Nat
  seen : Nat

/-- The first byte of a sequence: a character of its own (an ASCII byte, or U+FFFD for a
byte that cannot start a sequence) or the start of a multi-byte sequence. -/
def utf8Start (b : Nat) : Char ⊕ Utf8Pending :=
  if b < 0x80 then Sum.inl (Char.ofNat b)
  else if b < 0xC2 then Sum.inl (Char.ofNat 0xFFFD)
  else if b < 0xE0 then Sum.inr ⟨b - 0xC0, 1, 0x80, 0xBF, 1⟩
  else if b < 0xF0 then
    Sum.inr ⟨b - 0xE0, 2, if b = 0xE0 then 0xA0 else 0x80, if b = 0xED then 0x9F else 0xBF, 1⟩
  else if b < 0xF5 then
    Sum.inr ⟨b - 0xF0, 3, if b = 0xF0 then 0x90 else 0x80, if b = 0xF4 then 0x8F else 0xBF, 1⟩
  else Sum.inl (Char.ofNat 0xFFFD)

/-- Decode bytes as UTF-8 the way Go's `utf8.DecodeRune` loop does: every byte that is
not part of a well-formed sequence becomes U+FFFD. -/
def utf8Decode : Option Utf8Pending → List Nat → List Char
  | none, [] => []
  | some p, [] => List.replicate p.seen (Char.ofNat 0xFFFD)
  | none, b :: bs =>
    match utf8Start b with
    | Sum.inl c => c :: utf8Decode none bs
    | Sum.inr p => utf8Decode (some p) bs
  | some p, b :: bs =>
    if p.lo ≤ b ∧ b ≤ p.hi then
      if p.need = 1 then Char.ofNat (p.value * 64 + (b - 0x80)) :: utf8Decode none bs
      else utf8Decode (some ⟨p.value * 64 + (b - 0x80), p.need - 1, 0x80, 0xBF, p.seen + 1⟩) bs
    else
      List.replicate p.seen (Char.ofNat 0xFFFD) ++
        match utf8Start b with
        | Sum.inl c => c :: utf8Decode none bs
        | Sum.inr q => utf8Decode (some q) bs

/-- The payload `Present` formats (line 130), on the bytes of its two arguments. -/
def Present.payloadBytes (fqdn challenge : List Nat) : List Nat :=
  utf8Encode "\x7b\"name\":\"" ++ fqdn ++
    utf8Encode "\",\"type\":\"TXT\",\"records\":[\"\\\"" ++ challenge ++
    utf8Encode "\\\"\"]\x7d"

/-- Parse the bytes of a JSON text. -/
def JSON.parseBytes (body : List Nat) : Option JSON :=
  JSON.parse (String.mk (utf8Decode none body))

/-- The value of member `k` of an object (the last one, should the name repeat). -/
def JSON.field (k : String) : JSON → Option JSON
  | JSON.object ms => (ms.reverse.find? (fun m => decide (m.1 = k))).map Prod.snd
  | _ => none

/-- The text of a string value. -/
def JSON.text : JSON → Option String
  | JSON.string s => some s
  | _ => none

/-- The texts of a list of string values. -/
def JSON.textList : List JSON → Option (List String)
  | [] => some []
  | v :: vs =>
    match JSON.text v, JSON.textList vs with
    | some s, some ss => some (s :: ss)
    | _, _ => none

/-- The texts of an array of strings. -/
def JSON.texts : JSON → Option (List String)
  | JSON.array vs => JSON.textList vs
  | _ => none

/-- The recordset a create request describes, as the provider lists it once it is
ACTIVE under the id `id`: its name, type and values are the members `name`, `type` and
`records` of the JSON body (spec section 6, create on `/v2/zones/{zoneId}/recordsets`).
This is the provider's side of the exchange, not part of `main.go`. -/
def createdRecord (body : List Nat) (id : String) : Option Record :=
  match JSON.parseBytes body with
  | none => none
  | some doc =>
    match (JSON.field "name" doc).bind JSON.text, (JSON.field "type" doc).bind JSON.text,
      (JSON.field "records" doc).bind JSON.texts with
    | some name, some recordType, some values =>
      some ⟨id, name, recordType, values, "ACTIVE"⟩
    | _, _, _ => none

/-! ## A concrete world, used to instantiate the theorems -/

/-- Credentials of the sample run. -/
def sampleSigner : Signer := ⟨"ak", "sk"⟩

/-- The project listing of the sample provider. -/
def sampleProjects : List Project :=
  [⟨"p-0", false, "X"⟩, ⟨"p-1", true, "Y"⟩, ⟨"p-2", true, "X"⟩, ⟨"p-3", false, "X"⟩]

/-- The zone listing of the sample provider. -/
def sampleZones : List Zone :=
  [⟨"z-0", "example.com.", "PENDING"⟩, ⟨"z-1", "example.org.", "ACTIVE"⟩,
   ⟨"z-2", "example.com.", "ACTIVE"⟩]

/-- The recordset listing of the sample provider. -/
def sampleRecords : List Record :=
  [⟨"r-0", "_acme-challenge.example.com.", "TXT", [], "ACTIVE"⟩,
   ⟨"r-1", "_acme-challenge.example.com.", "TXT", ["\"abc123\"", "\"other\""], "ACTIVE"⟩,
   ⟨"r-2", "_acme-challenge.example.com.", "TXT", ["\"abc123\""], "ACTIVE"⟩,
   ⟨"r-3", "_acme-challenge.example.com.", "TXT", ["\"abc123\""], "ACTIVE"⟩]

/-- A provider that answers every request with a body, decoded to the sample
listings; project name `X`, region `ru-moscow-1`, registrable domain
`example.com` for every host. -/
def sampleWorld : World where
  Getenv := fun k =>
    if k = "SBC_PROJECT_NAME" then "X"
    else if k = "SBC_REGION_NAME" then "ru-moscow-1"
    else if k = "SBC_ACCESS_KEY" then "ak"
    else if k = "SBC_SECRET_KEY" then "sk"
    else ""
  Do := fun _ _ => Reply.body "listing"
  UnmarshalProjects := fun _ => ⟨sampleProjects⟩
  UnmarshalZones := fun _ => ⟨sampleZones⟩
  UnmarshalRecords := fun _ => ⟨sampleRecords⟩
  EffectiveTLDPlusOne := fun _ => Except.ok "example.com"

/-- The sample provider with an empty recordset listing. -/
def emptyWorld : World :=
  { sampleWorld with UnmarshalRecords := fun _ => ⟨[]⟩ }

/-- The sample run without a configured project name. -/
def bareWorld : World :=
  { sampleWorld with Getenv := fun k => if k = "SBC_REGION_NAME" then "ru-moscow-1" else "" }

/-! ## The three linear scans -/

theorem GetProjectId_scan_ok_iff (X id : String) (ps : List Project) :
    GetProjectId.scan X ps = Result.ok id ↔
      ∃ pre p post, ps = pre ++ p :: post ∧ p.Enabled = true ∧ p.Name = X ∧
        (∀ q ∈ pre, ¬ (q.Enabled = true ∧ q.Name = X)) ∧ id = p.Id := by
  induction ps with
  | nil => simp [GetProjectId.scan]
  | cons a as ih =>
    by_cases ha : a.Enabled = true ∧ a.Name = X
    · rw [GetProjectId.scan, if_pos ha]
      constructor
      · intro h
        refine ⟨[], a, as, rfl, ha.1, ha.2, by simp, ?_⟩
        exact (Result.ok.inj h).symm
      · rintro ⟨pre, p, post, hsplit, _, _, hpre, hid⟩
        cases pre with
        | nil =>
          simp only [List.nil_append, List.cons.injEq] at hsplit
          rw [hid, ← hsplit.1]
        | cons b bs =>
          simp only [List.cons_append, List.cons.injEq] at hsplit
          exact absurd (hsplit.1 ▸ ha) (hpre b (List.mem_cons_self _ _))
    · rw [GetProjectId.scan, if_neg ha, ih]
      constructor
      · rintro ⟨pre, p, post, hsplit, he, hn, hpre, hid⟩
        refine ⟨a :: pre, p, post, by simp [hsplit], he, hn, ?_, hid⟩
        intro q hq
        rcases List.mem_cons.mp hq with rfl | hq
        · exact ha
        · exact hpre q hq
      · rintro ⟨pre, p, post, hsplit, he, hn, hpre, hid⟩
        cases pre with
        | nil =>
          simp only [List.nil_append, List.cons.injEq] at hsplit
          exact absurd (hsplit.1 ▸ ⟨he, hn⟩) ha
        | cons b bs =>
          simp only [List.cons_append, List.cons.injEq] at hsplit
          exact ⟨bs, p, post, hsplit.2, he, hn,
            fun q hq => hpre q (List.mem_cons_of_mem _ hq), hid⟩

theorem GetProjectId_scan_none (X : String) (ps : List Project)
    (h : ∀ q ∈ ps, ¬ (q.Enabled = true ∧ q.Name = X)) :
    GetProjectId.scan X ps = Result.error ("no active project named '" ++ X ++ "' found") := by
  induction ps with
  | nil => rfl
  | cons a as ih =>
    rw [GetProjectId.scan, if_neg (h a (List.mem_cons_self _ _))]
    exact ih (fun q hq => h q (List.mem_cons_of_mem _ hq))

theorem GetZoneId_scan_ok_iff (n id : String) (zs : List Zone) :
    GetZoneId.scan n zs = Result.ok id ↔
      ∃ pre z post, zs = pre ++ z :: post ∧ z.Status = "ACTIVE" ∧ z.Name = n ∧
        (∀ x ∈ pre, ¬ (x.Status = "ACTIVE" ∧ x.Name = n)) ∧ id = z.Id := by
  induction zs with
  | nil => simp [GetZoneId.scan]
  | cons a as ih =>
    by_cases ha : a.Status = "ACTIVE" ∧ a.Name = n
    · rw [GetZoneId.scan, if_pos ha]
      constructor
      · intro h
        refine ⟨[], a, as, rfl, ha.1, ha.2, by simp, ?_⟩
        exact (Result.ok.inj h).symm
      · rintro ⟨pre, z, post, hsplit, _, _, hpre, hid⟩
        cases pre with
        | nil =>
          simp only [List.nil_append, List.cons.injEq] at hsplit
          rw [hid, ← hsplit.1]
        | cons b bs =>
          simp only [List.cons_append, List.cons.injEq] at hsplit
          exact absurd (hsplit.1 ▸ ha) (hpre b (List.mem_cons_self _ _))
    · rw [GetZoneId.scan, if_neg ha, ih]
      constructor
      · rintro ⟨pre, z, post, hsplit, he, hn, hpre, hid⟩
        refine ⟨a :: pre, z, post, by simp [hsplit], he, hn, ?_, hid⟩
        intro q hq
        rcases List.mem_cons.mp hq with rfl | hq
        · exact ha
        · exact hpre q hq
      · rintro ⟨pre, z, post, hsplit, he, hn, hpre, hid⟩
        cases pre with
        | nil =>
          simp only [List.nil_append, List.cons.injEq] at hsplit
          exact absurd (hsplit.1 ▸ ⟨he, hn⟩) ha
        | cons b bs =>
          simp only [List.cons_append, List.cons.injEq] at hsplit
          exact ⟨bs, z, post, hsplit.2, he, hn,
            fun q hq => hpre q (List.mem_cons_of_mem _ hq), hid⟩

theorem GetZoneId_scan_none (n : String) (zs : List Zone)
    (h : ∀ x ∈ zs, ¬ (x.Status = "ACTIVE" ∧ x.Name = n)) :
    GetZoneId.scan n zs = Result.error ("no active '" ++ TrimRight n "." ++ "' zone found") := by
  induction zs with
  | nil => rfl
  | cons a as ih =>
    rw [GetZoneId.scan, if_neg (h a (List.mem_cons_self _ _))]
    exact ih (fun q hq => h q (List.mem_cons_of_mem _ hq))

theorem GetRecordId_scan_ok_iff (fqdn challenge id : String) (rs : List Record) :
    GetRecordId.scan fqdn challenge rs = Result.ok id ↔
      ∃ pre r post, rs = pre ++ r :: post ∧ GetRecordId.cond fqdn challenge r ∧
        (∀ x ∈ pre, ¬ GetRecordId.cond fqdn challenge x) ∧ id = r.Id := by
  induction rs with
  | nil => simp [GetRecordId.scan]
  | cons a as ih =>
    by_cases ha : GetRecordId.cond fqdn challenge a
    · rw [GetRecordId.scan, if_pos ha]
      constructor
      · intro h
        refine ⟨[], a, as, rfl, ha, by simp, ?_⟩
        exact (Result.ok.inj h).symm
      · rintro ⟨pre, r, post, hsplit, _, hpre, hid⟩
        cases pre with
        | nil =>
          simp only [List.nil_append, List.cons.injEq] at hsplit
          rw [hid, ← hsplit.1]
        | cons b bs =>
          simp only [List.cons_append, List.cons.injEq] at hsplit
          exact absurd (hsplit.1 ▸ ha) (hpre b (List.mem_cons_self _ _))
    · rw [GetRecordId.scan, if_neg ha, ih]
      constructor
      · rintro ⟨pre, r, post, hsplit, hc, hpre, hid⟩
        refine ⟨a :: pre, r, post, by simp [hsplit], hc, ?_, hid⟩
        intro q hq
        rcases List.mem_cons.mp hq with rfl | hq
        · exact ha
        · exact hpre q hq
      · rintro ⟨pre, r, post, hsplit, hc, hpre, hid⟩
        cases pre with
        | nil =>
          simp only [List.nil_append, List.cons.injEq] at hsplit
          exact absurd (hsplit.1 ▸ hc) ha
        | cons b bs =>
          simp only [List.cons_append, List.cons.injEq] at hsplit
          exact ⟨bs, r, post, hsplit.2, hc,
            fun q hq => hpre q (List.mem_cons_of_mem _ hq), hid⟩

theorem GetRecordId_scan_none (fqdn challenge : String) (rs : List Record)
    (h : ∀ x ∈ rs, ¬ GetRecordId.cond fqdn challenge x) :
    GetRecordId.scan fqdn challenge rs =
      Result.error ("no active record '" ++ fqdn ++ "' of type 'TXT' with value '"
        ++ challenge ++ "' found") := by
  induction rs with
  | nil => rfl
  | cons a as ih =>
    rw [GetRecordId.scan, if_neg (h a (List.mem_cons_self _ _))]
    exact ih (fun q hq => h q (List.mem_cons_of_mem _ hq))

/-! ## Lookups -/

theorem CallApi_body (w : World) (method endpoint projectId payload b : String)
    (s : Signer) (log : List Call)
    (h : w.Do log ⟨method, endpoint, projectId, payload, s⟩ = Reply.body b) :
    CallApi w method endpoint projectId payload s log =
      (Result.ok b, log ++ [⟨method, endpoint, projectId, payload, s⟩]) := by
  simp only [CallApi, h]

theorem CallApi_log (w : World) (method endpoint projectId payload : String)
    (s : Signer) (log : List Call) :
    (CallApi w method endpoint projectId payload s log).2 =
      log ++ [⟨method, endpoint, projectId, payload, s⟩] := by
  simp only [CallApi]
  split <;> rfl

theorem GetRecordId_scan_cases (fqdn challenge : String) (rs : List Record) :
    (∃ id, GetRecordId.scan fqdn challenge rs = Result.ok id) ∨
      (∀ x ∈ rs, ¬ GetRecordId.cond fqdn challenge x) := by
  induction rs with
  | nil => right; simp
  | cons a as ih =>
    by_cases ha : GetRecordId.cond fqdn challenge a
    · left; exact ⟨a.Id, by rw [GetRecordId.scan, if_pos ha]⟩
    · rw [GetRecordId.scan, if_neg ha]
      rcases ih with h | h
      · left; exact h
      · right
        intro x hx
        rcases List.mem_cons.mp hx with rfl | hx
        · exact ha
        · exact h x hx

theorem GetZoneId_scan_cases (n : String) (zs : List Zone) :
    (∃ id, GetZoneId.scan n zs = Result.ok id) ∨
      (∀ x ∈ zs, ¬ (x.Status = "ACTIVE" ∧ x.Name = n)) := by
  induction zs with
  | nil => right; simp
  | cons a as ih =>
    by_cases ha : a.Status = "ACTIVE" ∧ a.Name = n
    · left; exact ⟨a.Id, by rw [GetZoneId.scan, if_pos ha]⟩
    · rw [GetZoneId.scan, if_neg ha]
      rcases ih with h | h
      · left; exact h
      · right
        intro x hx
        rcases List.mem_cons.mp hx with rfl | hx
        · exact ha
        · exact h x hx

theorem GetRecordId_body (w : World) (dnsEndpoint zoneId projectId fqdn challenge b : String)
    (s : Signer) (log : List Call)
    (h : w.Do log ⟨"GET", dnsEndpoint ++ "/v2/zones/" ++ zoneId ++ "/recordsets", projectId,
      "", s⟩ = Reply.body b) :
    GetRecordId w dnsEndpoint zoneId projectId fqdn challenge s log =
      (GetRecordId.scan fqdn challenge (w.UnmarshalRecords b).Records,
        log ++ [⟨"GET", dnsEndpoint ++ "/v2/zones/" ++ zoneId ++ "/recordsets", projectId,
          "", s⟩]) := by
  simp only [GetRecordId, CallApi_body _ _ _ _ _ _ _ _ h]

theorem GetZoneId_body (w : World) (dnsEndpoint zoneName projectId b : String)
    (s : Signer) (log : List Call)
    (h : w.Do log ⟨"GET", dnsEndpoint ++ "/v2/zones", projectId, "", s⟩ = Reply.body b) :
    GetZoneId w dnsEndpoint zoneName projectId s log =
      (GetZoneId.scan zoneName (w.UnmarshalZones b).Zones,
        log ++ [⟨"GET", dnsEndpoint ++ "/v2/zones", projectId, "", s⟩]) := by
  simp only [GetZoneId, CallApi_body _ _ _ _ _ _ _ _ h]

theorem GetProjectId_body (w : World) (authEndpoint projectName b : String)
    (s : Signer) (log : List Call)
    (h : w.Do log ⟨"GET", authEndpoint ++ "/v3/projects", "", "", s⟩ = Reply.body b) :
    GetProjectId w authEndpoint projectName s log =
      (GetProjectId.scan projectName (w.UnmarshalProjects b).Projects,
        log ++ [⟨"GET", authEndpoint ++ "/v3/projects", "", "", s⟩]) := by
  simp only [GetProjectId, CallApi_body _ _ _ _ _ _ _ _ h]

theorem GetRecordId_cond_length {fqdn challenge : String} {r : Record}
    (h : r.Records = [] ∨ 2 ≤ r.Records.length) : ¬ GetRecordId.cond fqdn challenge r := by
  rintro ⟨_, _, _, hrec⟩
  rcases h with h | h
  · rw [h] at hrec; exact List.noConfusion hrec
  · rw [hrec] at h; simp at h

theorem GetRecordId_scan_skip (fqdn challenge : String) (pre : List Record) (r : Record)
    (post : List Record) (h : ¬ GetRecordId.cond fqdn challenge r) :
    GetRecordId.scan fqdn challenge (pre ++ r :: post) =
      GetRecordId.scan fqdn challenge (pre ++ post) := by
  induction pre with
  | nil => simp only [List.nil_append]; rw [GetRecordId.scan, if_neg h]
  | cons a as ih =>
    simp only [List.cons_append]
    by_cases ha : GetRecordId.cond fqdn challenge a
    · rw [GetRecordId.scan, if_pos ha, GetRecordId.scan, if_pos ha]
    · rw [GetRecordId.scan, if_neg ha, ih, GetRecordId.scan.eq_2, if_neg ha]

/-- C1: once the recordset listing has been fetched and decoded to `rs`, `GetRecordId`
succeeds exactly when `rs` has an entry that is ACTIVE, named exactly `fqdn`, of type
TXT and whose values are the single string `"<challenge>"` (quotes included); the id
returned is that of the first such entry, and an entry with no value or with two or
more values never matches: dropping it from the listing leaves the scan unchanged. -/
theorem GetRecordId_first_match (w : World)
    (dnsEndpoint zoneId projectId fqdn challenge body : String) (s : Signer)
    (log : List Call) (rs : List Record)
    (hdo : w.Do log ⟨"GET", dnsEndpoint ++ "/v2/zones/" ++ zoneId ++ "/recordsets",
      projectId, "", s⟩ = Reply.body body)
    (hrs : (w.UnmarshalRecords body).Records = rs) :
    ((∃ id, (GetRecordId w dnsEndpoint zoneId projectId fqdn challenge s log).1 = Result.ok id)
      ↔ ∃ r ∈ rs, r.Status = "ACTIVE" ∧ r.Name = fqdn ∧ r.Type_ = "TXT" ∧
          r.Records = ["\"" ++ challenge ++ "\""]) ∧
    (∀ id, (GetRecordId w dnsEndpoint zoneId projectId fqdn challenge s log).1 = Result.ok id →
      ∃ pre r post, rs = pre ++ r :: post ∧ id = r.Id ∧
        (r.Status = "ACTIVE" ∧ r.Name = fqdn ∧ r.Type_ = "TXT" ∧
          r.Records = ["\"" ++ challenge ++ "\""]) ∧
        ∀ x ∈ pre, ¬ (x.Status = "ACTIVE" ∧ x.Name = fqdn ∧ x.Type_ = "TXT" ∧
          x.Records = ["\"" ++ challenge ++ "\""])) ∧
    (∀ pre r post, (r.Records = [] ∨ 2 ≤ r.Records.length) →
      GetRecordId.scan fqdn challenge (pre ++ r :: post) =
        GetRecordId.scan fqdn challenge (pre ++ post)) := by
  rw [GetRecordId_body w dnsEndpoint zoneId projectId fqdn challenge body s log hdo, hrs]
  refine ⟨⟨?_, ?_⟩, ?_, ?_⟩
  · rintro ⟨id, hid⟩
    obtain ⟨pre, r, post, hsplit, hc, _, _⟩ := (GetRecordId_scan_ok_iff _ _ _ _).mp hid
    exact ⟨r, by simp [hsplit], hc⟩
  · rintro ⟨r, hr, hc⟩
    rcases GetRecordId_scan_cases fqdn challenge rs with h | h
    · exact h
    · exact absurd hc (h r hr)
  · intro id hid
    obtain ⟨pre, r, post, hsplit, hc, hpre, hidr⟩ := (GetRecordId_scan_ok_iff _ _ _ _).mp hid
    exact ⟨pre, r, post, hsplit, hidr, hc, hpre⟩
  · intro pre r post hr
    exact GetRecordId_scan_skip fqdn challenge pre r post (GetRecordId_cond_length hr)

/-- C1 at the sample listing: the first two entries carry zero and two values, the
third is the first match. -/
theorem GetRecordId_first_match_witness :
    sampleWorld.Do [] ⟨"GET", "https://dns" ++ "/v2/zones/" ++ "z-2" ++ "/recordsets",
        "p-2", "", sampleSigner⟩ = Reply.body "listing" ∧
      (sampleWorld.UnmarshalRecords "listing").Records = sampleRecords ∧
      (∃ id, (GetRecordId sampleWorld "https://dns" "z-2" "p-2" "_acme-challenge.example.com."
        "abc123" sampleSigner []).1 = Result.ok id) ∧
      (GetRecordId sampleWorld "https://dns" "z-2" "p-2" "_acme-challenge.example.com."
        "abc123" sampleSigner []).1 = Result.ok "r-2" :=
  ⟨rfl, rfl,
    (GetRecordId_first_match sampleWorld "https://dns" "z-2" "p-2"
      "_acme-challenge.example.com." "abc123" "listing" sampleSigner [] sampleRecords
      rfl rfl).1.mpr
      ⟨⟨"r-2", "_acme-challenge.example.com.", "TXT", ["\"abc123\""], "ACTIVE"⟩,
        by decide, by decide⟩,
    by decide⟩

/-- C2: once the project listing has been fetched and decoded to `ps`: if exactly one
entry of `ps` is enabled and named `X`, `GetProjectId` returns the id of that entry;
if every entry named `X` is disabled, it fails with the error
`no active project named 'X' found`. -/
theorem GetProjectId_unique_enabled (w : World) (authEndpoint X body : String) (s : Signer)
    (log : List Call) (ps : List Project)
    (hdo : w.Do log ⟨"GET", authEndpoint ++ "/v3/projects", "", "", s⟩ = Reply.body body)
    (hps : (w.UnmarshalProjects body).Projects = ps) :
    (∀ pre p post, ps = pre ++ p :: post → p.Enabled = true → p.Name = X →
      (∀ q ∈ pre ++ post, q.Enabled = false ∨ q.Name ≠ X) →
      (GetProjectId w authEndpoint X s log).1 = Result.ok p.Id) ∧
    ((∀ q ∈ ps, q.Name = X → q.Enabled = false) →
      (GetProjectId w authEndpoint X s log).1 =
        Result.error ("no active project named '" ++ X ++ "' found")) := by
  rw [GetProjectId_body w authEndpoint X body s log hdo, hps]
  constructor
  · intro pre p post hsplit he hn hothers
    refine (GetProjectId_scan_ok_iff X p.Id ps).mpr ⟨pre, p, post, hsplit, he, hn, ?_, rfl⟩
    intro q hq hc
    rcases hothers q (List.mem_append_left _ hq) with h | h
    · rw [hc.1] at h; exact Bool.noConfusion h
    · exact h hc.2
  · intro hall
    apply GetProjectId_scan_none
    intro q hq hc
    have := hall q hq hc.2
    rw [hc.1] at this
    exact Bool.noConfusion this

/-- C2 at the sample listing: `p-2` is the only enabled project named `X`; every
project named `Z` (there is none) is disabled. -/
theorem GetProjectId_unique_enabled_witness :
    sampleWorld.Do [] ⟨"GET", "https://iam" ++ "/v3/projects", "", "", sampleSigner⟩ =
        Reply.body "listing" ∧
      (sampleWorld.UnmarshalProjects "listing").Projects = sampleProjects ∧
      (GetProjectId sampleWorld "https://iam" "X" sampleSigner []).1 = Result.ok "p-2" :=
  ⟨rfl, rfl,
    (GetProjectId_unique_enabled sampleWorld "https://iam" "X" "listing" sampleSigner []
      sampleProjects rfl rfl).1
      [⟨"p-0", false, "X"⟩, ⟨"p-1", true, "Y"⟩] ⟨"p-2", true, "X"⟩ [⟨"p-3", false, "X"⟩]
      rfl rfl rfl (by decide)⟩

/-- C3: once the zone listing has been fetched and decoded to `zs`, `GetZoneId`
succeeds exactly when some entry is ACTIVE and named exactly `n`, and returns the id
of the first such entry; when exactly one entry is ACTIVE and named `n` (for instance
`example.com.`) it returns that entry's id, and when none is it fails with the error
`no active '<n without trailing dots>' zone found`. -/
theorem GetZoneId_first_match (w : World) (dnsEndpoint n projectId body : String)
    (s : Signer) (log : List Call) (zs : List Zone)
    (hdo : w.Do log ⟨"GET", dnsEndpoint ++ "/v2/zones", projectId, "", s⟩ = Reply.body body)
    (hzs : (w.UnmarshalZones body).Zones = zs) :
    ((∃ id, (GetZoneId w dnsEndpoint n projectId s log).1 = Result.ok id) ↔
      ∃ z ∈ zs, z.Status = "ACTIVE" ∧ z.Name = n) ∧
    (∀ id, (GetZoneId w dnsEndpoint n projectId s log).1 = Result.ok id →
      ∃ pre z post, zs = pre ++ z :: post ∧ id = z.Id ∧ z.Status = "ACTIVE" ∧ z.Name = n ∧
        ∀ x ∈ pre, ¬ (x.Status = "ACTIVE" ∧ x.Name = n)) ∧
    (∀ pre z post, zs = pre ++ z :: post → z.Status = "ACTIVE" → z.Name = n →
      (∀ x ∈ pre ++ post, ¬ (x.Status = "ACTIVE" ∧ x.Name = n)) →
      (GetZoneId w dnsEndpoint n projectId s log).1 = Result.ok z.Id) ∧
    ((∀ x ∈ zs, ¬ (x.Status = "ACTIVE" ∧ x.Name = n)) →
      (GetZoneId w dnsEndpoint n projectId s log).1 =
        Result.error ("no active '" ++ TrimRight n "." ++ "' zone found")) := by
  rw [GetZoneId_body w dnsEndpoint n projectId body s log hdo, hzs]
  refine ⟨⟨?_, ?_⟩, ?_, ?_, ?_⟩
  · rintro ⟨id, hid⟩
    obtain ⟨pre, z, post, hsplit, hs, hn, _, _⟩ := (GetZoneId_scan_ok_iff _ _ _).mp hid
    exact ⟨z, by simp [hsplit], hs, hn⟩
  · rintro ⟨z, hz, hc⟩
    rcases GetZoneId_scan_cases n zs with h | h
    · exact h
    · exact absurd hc (h z hz)
  · intro id hid
    obtain ⟨pre, z, post, hsplit, hs, hn, hpre, hidz⟩ := (GetZoneId_scan_ok_iff _ _ _).mp hid
    exact ⟨pre, z, post, hsplit, hidz, hs, hn, hpre⟩
  · intro pre z post hsplit hs hn hothers
    exact (GetZoneId_scan_ok_iff n z.Id zs).mpr ⟨pre, z, post, hsplit, hs, hn,
      fun x hx => hothers x (List.mem_append_left _ hx), rfl⟩
  · intro hall
    exact GetZoneId_scan_none n zs hall

/-- C3 at the sample listing: `z-2` is the only ACTIVE zone named `example.com.`. -/
theorem GetZoneId_first_match_witness :
    sampleWorld.Do [] ⟨"GET", "https://dns" ++ "/v2/zones", "p-2", "", sampleSigner⟩ =
        Reply.body "listing" ∧
      (sampleWorld.UnmarshalZones "listing").Zones = sampleZones ∧
      (GetZoneId sampleWorld "https://dns" "example.com." "p-2" sampleSigner []).1 =
        Result.ok "z-2" :=
  ⟨rfl, rfl,
    (GetZoneId_first_match sampleWorld "https://dns" "example.com." "p-2" "listing"
      sampleSigner [] sampleZones rfl rfl).2.2.1
      [⟨"z-0", "example.com.", "PENDING"⟩, ⟨"z-1", "example.org.", "ACTIVE"⟩]
      ⟨"z-2", "example.com.", "ACTIVE"⟩ [] rfl rfl rfl (by decide)⟩

/-- C5: `Present` invokes `CallApi` exactly once, whatever the provider does: method
POST, URL `dnsEndpoint + "/v2/zones/" + zoneId + "/recordsets"`, and as body the
template with `fqdn` and `challenge` substituted verbatim; for
`_acme-challenge.example.com.` and `abc123` the body is the string of the spec. -/
theorem Present_single_post (w : World) (dnsEndpoint zoneId projectId fqdn challenge : String)
    (s : Signer) (log : List Call) :
    (Present w dnsEndpoint zoneId projectId fqdn challenge s log).2 =
      log ++ [⟨"POST", dnsEndpoint ++ "/v2/zones/" ++ zoneId ++ "/recordsets", projectId,
        "\x7b\"name\":\"" ++ fqdn ++ "\",\"type\":\"TXT\",\"records\":[\"\\\"" ++ challenge
          ++ "\\\"\"]\x7d", s⟩] ∧
    Present.payload "_acme-challenge.example.com." "abc123" =
      "\x7b\"name\":\"_acme-challenge.example.com.\",\"type\":\"TXT\",\"records\":[\"\\\"abc123\\\"\"]\x7d" := by
  constructor
  · rw [Present, CallApi_log]; rfl
  · decide

/-- C6: once the recordset listing has been fetched and decoded to `rs`: if no entry
matches the lookup predicate, `Cleanup` fails with the not-found error of
`GetRecordId` and its only call is the recordset GET (no DELETE); if some entry
matches, its calls are that GET followed by exactly one DELETE, to
`dnsEndpoint + "/v2/zones/" + zoneId + "/recordsets/" +` the id of the first
matching entry. -/
theorem Cleanup_delete_first_match (w : World)
    (dnsEndpoint zoneId projectId fqdn challenge body : String) (s : Signer)
    (log : List Call) (rs : List Record)
    (hdo : w.Do log ⟨"GET", dnsEndpoint ++ "/v2/zones/" ++ zoneId ++ "/recordsets",
      projectId, "", s⟩ = Reply.body body)
    (hrs : (w.UnmarshalRecords body).Records = rs) :
    ((∀ r ∈ rs, ¬ (r.Status = "ACTIVE" ∧ r.Name = fqdn ∧ r.Type_ = "TXT" ∧
        r.Records = ["\"" ++ challenge ++ "\""])) →
      Cleanup w dnsEndpoint zoneId projectId fqdn challenge s log =
        (Result.error ("no active record '" ++ fqdn ++ "' of type 'TXT' with value '"
            ++ challenge ++ "' found"),
          log ++ [⟨"GET", dnsEndpoint ++ "/v2/zones/" ++ zoneId ++ "/recordsets",
            projectId, "", s⟩])) ∧
    ((∃ r ∈ rs, r.Status = "ACTIVE" ∧ r.Name = fqdn ∧ r.Type_ = "TXT" ∧
        r.Records = ["\"" ++ challenge ++ "\""]) →
      ∃ pre r post, rs = pre ++ r :: post ∧
        (r.Status = "ACTIVE" ∧ r.Name = fqdn ∧ r.Type_ = "TXT" ∧
          r.Records = ["\"" ++ challenge ++ "\""]) ∧
        (∀ x ∈ pre, ¬ (x.Status = "ACTIVE" ∧ x.Name = fqdn ∧ x.Type_ = "TXT" ∧
          x.Records = ["\"" ++ challenge ++ "\""])) ∧
        (Cleanup w dnsEndpoint zoneId projectId fqdn challenge s log).2 =
          log ++ [⟨"GET", dnsEndpoint ++ "/v2/zones/" ++ zoneId ++ "/recordsets",
              projectId, "", s⟩,
            ⟨"DELETE", dnsEndpoint ++ "/v2/zones/" ++ zoneId ++ "/recordsets/" ++ r.Id,
              projectId, "", s⟩]) := by
  have hget := GetRecordId_body w dnsEndpoint zoneId projectId fqdn challenge body s log hdo
  rw [hrs] at hget
  constructor
  · intro hnone
    rw [Cleanup, hget, GetRecordId_scan_none fqdn challenge rs hnone]
  · rintro ⟨r, hr, hc⟩
    rcases GetRecordId_scan_cases fqdn challenge rs with h | h
    · obtain ⟨id, hid⟩ := h
      obtain ⟨pre, r1, post, hsplit, hc1, hpre, hidr⟩ :=
        (GetRecordId_scan_ok_iff _ _ _ _).mp hid
      refine ⟨pre, r1, post, hsplit, hc1, hpre, ?_⟩
      rw [Cleanup, hget, hid]
      simp only [CallApi_log, hidr, List.append_assoc, List.singleton_append]
    · exact absurd hc (h r hr)

/-- C6 at the sample listings: with the empty listing the only call is the GET; with
the sample listing the DELETE goes to the first match `r-2`. -/
theorem Cleanup_delete_first_match_witness :
    (emptyWorld.Do [] ⟨"GET", "https://dns" ++ "/v2/zones/" ++ "z-2" ++ "/recordsets",
        "p-2", "", sampleSigner⟩ = Reply.body "listing" ∧
      (emptyWorld.UnmarshalRecords "listing").Records = []) ∧
      Cleanup emptyWorld "https://dns" "z-2" "p-2" "_acme-challenge.example.com." "abc123"
          sampleSigner [] =
        (Result.error ("no active record '" ++ "_acme-challenge.example.com." ++
            "' of type 'TXT' with value '" ++ "abc123" ++ "' found"),
          [] ++ [⟨"GET", "https://dns" ++ "/v2/zones/" ++ "z-2" ++ "/recordsets",
            "p-2", "", sampleSigner⟩]) ∧
      (Cleanup sampleWorld "https://dns" "z-2" "p-2" "_acme-challenge.example.com." "abc123"
          sampleSigner []).2 =
        [⟨"GET", "https://dns/v2/zones/z-2/recordsets", "p-2", "", sampleSigner⟩,
          ⟨"DELETE", "https://dns/v2/zones/z-2/recordsets/r-2", "p-2", "", sampleSigner⟩] :=
  ⟨⟨rfl, rfl⟩,
    (Cleanup_delete_first_match emptyWorld "https://dns" "z-2" "p-2"
      "_acme-challenge.example.com." "abc123" "listing" sampleSigner [] [] rfl rfl).1
      (fun r hr => absurd hr (List.not_mem_nil r)),
    by decide⟩

/-! ## The entry point -/

theorem main_eq (w : World) (Args : List String) :
    main w Args =
      match main.resolve w Args with
      | (Result.ok (projectId, zoneId), log) =>
        main.report (main.dispatch w Args projectId zoneId log)
      | (Result.error e, log) => ⟨Termination.exit 1, [e], log⟩
      | (Result.panic p, log) => ⟨Termination.panic p, [], log⟩ := by
  have hP : (if w.Getenv "SBC_PROJECT_NAME" ≠ "" then
      GetProjectId w (main.authEndpoint w) (w.Getenv "SBC_PROJECT_NAME") (main.signer w) []
    else (Result.ok "", [])) = main.project w := rfl
  unfold main main.resolve
  rw [hP]
  rcases h1 : main.project w with ⟨(pid | e | p), l1⟩
  · simp only [main.zoneName]
    rcases h2 : Args[2]? with _ | fqdn
    · simp only
    · simp only
      rcases h3 : w.EffectiveTLDPlusOne (TrimRight fqdn ".") with e | zn
      · simp only
      · simp only
        rcases h4 : GetZoneId w (main.dnsEndpoint w) (zn ++ ".") pid (main.signer w) l1
          with ⟨(zid | e | p), l2⟩
        · simp only [main.dispatch, h2]
          rcases h5 : Args[1]? with _ | cmd
          · simp only [main.report]
          · simp only
            by_cases hp : cmd = "present"
            · simp only [if_pos hp]
              rcases h6 : Args[3]? with _ | c
              · simp only [main.report]
              · simp only
                rcases Present w (main.dnsEndpoint w) zid pid fqdn c (main.signer w) l2
                  with ⟨(r | e | p), l3⟩ <;> simp only [main.report]
            · simp only [if_neg hp]
              by_cases hc : cmd = "cleanup"
              · simp only [if_pos hc]
                rcases h6 : Args[3]? with _ | c
                · simp only [main.report]
                · simp only
                  rcases Cleanup w (main.dnsEndpoint w) zid pid fqdn c (main.signer w) l2
                    with ⟨(r | e | p), l3⟩ <;> simp only [main.report]
              · simp only [if_neg hc, main.report]
        · simp only
        · simp only
  · simp only
  · simp only

theorem TrimRight_append_dot (f : String) : TrimRight (f ++ ".") "." = TrimRight f "." := by
  simp [TrimRight, String.data_append, List.dropWhile]

theorem GetZoneId_scan_name (n id : String) (zs : List Zone)
    (h : GetZoneId.scan n zs = Result.ok id) : ∃ z ∈ zs, z.Name = n ∧ z.Id = id := by
  obtain ⟨pre, z, post, hsplit, _, hn, _, hid⟩ := (GetZoneId_scan_ok_iff n id zs).mp h
  exact ⟨z, by simp [hsplit], hn, hid.symm⟩

/-- C4, as the code has it: `GetZoneId` compares zone names exactly, so a lookup can
only return a zone whose name is the requested string, character for character.  The
trailing dots are normalized by `main`, on the FQDN argument: the zone name it asks
for is `EffectiveTLDPlusOne(TrimRight(fqdn, "."))` followed by one dot, so two runs
whose FQDN arguments differ only in trailing dots (such as `f` and `f + "."`) make
the same project and zone lookups with the same outcome; `main.resolve` is that part
of `main`, which goes on with the ids it yields. -/
theorem main_resolve_trailing_dots (w : World) (prog cmd f g : String) (rest : List String)
    (h : TrimRight f "." = TrimRight g ".") :
    main.resolve w (prog :: cmd :: f :: rest) = main.resolve w (prog :: cmd :: g :: rest) ∧
    main.zoneName w (prog :: cmd :: f :: rest) =
      (match w.EffectiveTLDPlusOne (TrimRight g ".") with
        | Except.error e => Result.error e
        | Except.ok zoneName => Result.ok (zoneName ++ ".")) ∧
    TrimRight (f ++ ".") "." = TrimRight f "." ∧
    (∀ (n id : String) (zs : List Zone), GetZoneId.scan n zs = Result.ok id →
      ∃ z ∈ zs, z.Name = n ∧ z.Id = id) ∧
    (∀ Args : List String, main w Args =
      match main.resolve w Args with
      | (Result.ok (projectId, zoneId), log) =>
        main.report (main.dispatch w Args projectId zoneId log)
      | (Result.error e, log) => ⟨Termination.exit 1, [e], log⟩
      | (Result.panic p, log) => ⟨Termination.panic p, [], log⟩) := by
  have hz : main.zoneName w (prog :: cmd :: f :: rest) =
      main.zoneName w (prog :: cmd :: g :: rest) := by
    simp only [main.zoneName, List.getElem?_cons_succ, List.getElem?_cons_zero, h]
  refine ⟨?_, ?_, TrimRight_append_dot f, GetZoneId_scan_name, main_eq w⟩
  · simp only [main.resolve, hz]
  · simp only [main.zoneName, List.getElem?_cons_succ, List.getElem?_cons_zero, h]

/-- C4 at the sample provider: the FQDN arguments `example.com.` and `example.com`
resolve to the same project and zone. -/
theorem main_resolve_trailing_dots_witness :
    TrimRight "example.com." "." = TrimRight "example.com" "." ∧
      main.resolve sampleWorld ["helper", "present", "example.com.", "abc123"] =
        main.resolve sampleWorld ["helper", "present", "example.com", "abc123"] ∧
      (main.resolve sampleWorld ["helper", "present", "example.com", "abc123"]).1 =
        Result.ok ("p-2", "z-2") :=
  ⟨by decide,
    (main_resolve_trailing_dots sampleWorld "helper" "present" "example.com." "example.com"
      ["abc123"] (by decide)).1,
    by decide⟩

/-- C4 fails as stated: with exactly one ACTIVE zone named `example.com.` in the
listing, `GetZoneId` finds it under `example.com.` and fails under `example.com`. -/
theorem GetZoneId_trailing_dot_counterexample :
    (GetZoneId sampleWorld "https://dns" "example.com." "p-2" sampleSigner []).1 =
        Result.ok "z-2" ∧
      (GetZoneId sampleWorld "https://dns" "example.com" "p-2" sampleSigner []).1 =
        Result.error "no active 'example.com' zone found" ∧
      (GetZoneId sampleWorld "https://dns" "example.com" "p-2" sampleSigner []).1 ≠
        (GetZoneId sampleWorld "https://dns" "example.com." "p-2" sampleSigner []).1 := by
  refine ⟨by decide, by decide, by decide⟩

theorem GetProjectId_log (w : World) (authEndpoint projectName : String) (s : Signer)
    (log : List Call) :
    (GetProjectId w authEndpoint projectName s log).2 =
      log ++ [⟨"GET", authEndpoint ++ "/v3/projects", "", "", s⟩] := by
  have h := CallApi_log w "GET" (authEndpoint ++ "/v3/projects") "" "" s log
  unfold GetProjectId
  split <;> simp_all

theorem GetZoneId_log (w : World) (dnsEndpoint zoneName projectId : String) (s : Signer)
    (log : List Call) :
    (GetZoneId w dnsEndpoint zoneName projectId s log).2 =
      log ++ [⟨"GET", dnsEndpoint ++ "/v2/zones", projectId, "", s⟩] := by
  have h := CallApi_log w "GET" (dnsEndpoint ++ "/v2/zones") projectId "" s log
  unfold GetZoneId
  split <;> simp_all

theorem GetRecordId_log (w : World) (dnsEndpoint zoneId projectId fqdn challenge : String)
    (s : Signer) (log : List Call) :
    (GetRecordId w dnsEndpoint zoneId projectId fqdn challenge s log).2 =
      log ++ [⟨"GET", dnsEndpoint ++ "/v2/zones/" ++ zoneId ++ "/recordsets", projectId,
        "", s⟩] := by
  have h := CallApi_log w "GET" (dnsEndpoint ++ "/v2/zones/" ++ zoneId ++ "/recordsets")
    projectId "" s log
  unfold GetRecordId
  split <;> simp_all

theorem Present_log (w : World) (dnsEndpoint zoneId projectId fqdn challenge : String)
    (s : Signer) (log : List Call) :
    (Present w dnsEndpoint zoneId projectId fqdn challenge s log).2 =
      log ++ [⟨"POST", dnsEndpoint ++ "/v2/zones/" ++ zoneId ++ "/recordsets", projectId,
        Present.payload fqdn challenge, s⟩] := by
  rw [Present, CallApi_log]

theorem Cleanup_log (w : World) (dnsEndpoint zoneId projectId fqdn challenge : String)
    (s : Signer) (log : List Call) :
    (Cleanup w dnsEndpoint zoneId projectId fqdn challenge s log).2 =
        log ++ [⟨"GET", dnsEndpoint ++ "/v2/zones/" ++ zoneId ++ "/recordsets", projectId,
          "", s⟩] ∨
      ∃ recordId, (Cleanup w dnsEndpoint zoneId projectId fqdn challenge s log).2 =
        log ++ [⟨"GET", dnsEndpoint ++ "/v2/zones/" ++ zoneId ++ "/recordsets", projectId,
            "", s⟩,
          ⟨"DELETE", dnsEndpoint ++ "/v2/zones/" ++ zoneId ++ "/recordsets/" ++ recordId,
            projectId, "", s⟩] := by
  have h := GetRecordId_log w dnsEndpoint zoneId projectId fqdn challenge s log
  unfold Cleanup
  rcases hg : GetRecordId w dnsEndpoint zoneId projectId fqdn challenge s log
    with ⟨(rid | e | p), l1⟩
  · right
    refine ⟨rid, ?_⟩
    rw [hg] at h
    simp only at h
    simp only [CallApi_log, h, List.append_assoc, List.singleton_append]
  · left; rw [hg] at h; exact h
  · left; rw [hg] at h; exact h

theorem main_project_log (w : World) :
    (main.project w).2 =
      if w.Getenv "SBC_PROJECT_NAME" ≠ "" then
        [⟨"GET", main.authEndpoint w ++ "/v3/projects", "", "", main.signer w⟩]
      else [] := by
  unfold main.project
  split
  · rw [GetProjectId_log, List.nil_append]
  · rfl

theorem main_zoneName_args (w : World) (Args : List String) (zoneName : String)
    (h : main.zoneName w Args = Result.ok zoneName) : ∃ fqdn, Args[2]? = some fqdn := by
  unfold main.zoneName at h
  rcases h2 : Args[2]? with _ | fqdn
  · rw [h2] at h; exact absurd h (by simp)
  · exact ⟨fqdn, rfl⟩

theorem main_dispatch_present (w : World) (Args : List String)
    (projectId zoneId fqdn challenge : String) (log : List Call)
    (h1 : Args[1]? = some "present") (h2 : Args[2]? = some fqdn)
    (h3 : Args[3]? = some challenge) :
    main.dispatch w Args projectId zoneId log =
      Present w (main.dnsEndpoint w) zoneId projectId fqdn challenge (main.signer w) log := by
  simp only [main.dispatch, h1, h2, h3, if_true]

theorem main_dispatch_cleanup (w : World) (Args : List String)
    (projectId zoneId fqdn challenge : String) (log : List Call)
    (h1 : Args[1]? = some "cleanup") (h2 : Args[2]? = some fqdn)
    (h3 : Args[3]? = some challenge) :
    main.dispatch w Args projectId zoneId log =
      Cleanup w (main.dnsEndpoint w) zoneId projectId fqdn challenge (main.signer w) log := by
  have hne : ¬ ("cleanup" = "present") := by decide
  simp only [main.dispatch, h1, h2, h3, if_neg hne, if_true]

theorem main_dispatch_missing (w : World) (Args : List String)
    (projectId zoneId cmd fqdn : String) (log : List Call)
    (h1 : Args[1]? = some cmd) (hc : cmd = "present" ∨ cmd = "cleanup")
    (h2 : Args[2]? = some fqdn) (h3 : Args[3]? = none) :
    main.dispatch w Args projectId zoneId log =
      (Result.panic (Panic.indexOutOfRange 3 Args.length), log) := by
  have hne : ¬ ("cleanup" = "present") := by decide
  rcases hc with rfl | rfl
  · simp only [main.dispatch, h1, h2, h3, if_true]
  · simp only [main.dispatch, h1, h2, h3, if_neg hne, if_true]

theorem main_dispatch_other (w : World) (Args : List String)
    (projectId zoneId cmd fqdn : String) (log : List Call)
    (h1 : Args[1]? = some cmd) (hp : cmd ≠ "present") (hc : cmd ≠ "cleanup")
    (h2 : Args[2]? = some fqdn) :
    main.dispatch w Args projectId zoneId log = (Result.ok "", log) := by
  simp only [main.dispatch, h1, h2, if_neg hp, if_neg hc]

theorem main_dispatch_error (w : World) (Args : List String)
    (projectId zoneId e : String) (log l3 : List Call)
    (h : main.dispatch w Args projectId zoneId log = (Result.error e, l3)) :
    ∃ fqdn challenge, Args[2]? = some fqdn ∧ Args[3]? = some challenge ∧
      ((Args[1]? = some "present" ∧
          Present w (main.dnsEndpoint w) zoneId projectId fqdn challenge (main.signer w) log =
            (Result.error e, l3)) ∨
        (Args[1]? = some "cleanup" ∧
          Cleanup w (main.dnsEndpoint w) zoneId projectId fqdn challenge (main.signer w) log =
            (Result.error e, l3))) := by
  unfold main.dispatch at h
  rcases h1 : Args[1]? with _ | cmd
  · rw [h1] at h; exact absurd h (by simp)
  · rcases h2 : Args[2]? with _ | fqdn
    · rw [h1, h2] at h; exact absurd h (by simp)
    · rw [h1, h2] at h
      simp only at h
      by_cases hp : cmd = "present"
      · rw [if_pos hp] at h
        rcases h3 : Args[3]? with _ | c
        · rw [h3] at h; exact absurd h (by simp)
        · rw [h3] at h
          exact ⟨fqdn, c, rfl, rfl, Or.inl ⟨by rw [hp], h⟩⟩
      · rw [if_neg hp] at h
        by_cases hc : cmd = "cleanup"
        · rw [if_pos hc] at h
          rcases h3 : Args[3]? with _ | c
          · rw [h3] at h; exact absurd h (by simp)
          · rw [h3] at h
            exact ⟨fqdn, c, rfl, rfl, Or.inr ⟨by rw [hc], h⟩⟩
        · rw [if_neg hc] at h
          exact absurd h (by simp)

/-- C8, as the code has it: `main` stops at the first stage that does not succeed.
When project lookup (run only if a project name is configured), zone-name derivation,
zone lookup or the dispatched `Present`/`Cleanup` returns an error, that error is
printed, the status is 1 and the calls made are those up to and including that stage;
when a stage panics (`os.Args[2]` is missing, `os.Args[3]` is missing for `present` or
`cleanup`, or a request cannot be built) the process aborts with nothing on standard
output and the same calls; otherwise the status is 0 and nothing is printed.  Status 1
arises only from a stage returning an error. -/
theorem main_stops_at_first_failure (w : World) (Args : List String) :
    (∀ e l1, main.project w = (Result.error e, l1) →
      main w Args = ⟨Termination.exit 1, [e], l1⟩) ∧
    (∀ p l1, main.project w = (Result.panic p, l1) →
      main w Args = ⟨Termination.panic p, [], l1⟩) ∧
    (∀ projectId l1, main.project w = (Result.ok projectId, l1) →
      (∀ e, main.zoneName w Args = Result.error e →
        main w Args = ⟨Termination.exit 1, [e], l1⟩) ∧
      (∀ p, main.zoneName w Args = Result.panic p →
        main w Args = ⟨Termination.panic p, [], l1⟩) ∧
      (∀ zoneName, main.zoneName w Args = Result.ok zoneName →
        (∀ e l2, GetZoneId w (main.dnsEndpoint w) zoneName projectId (main.signer w) l1 =
            (Result.error e, l2) →
          main w Args = ⟨Termination.exit 1, [e], l2⟩) ∧
        (∀ p l2, GetZoneId w (main.dnsEndpoint w) zoneName projectId (main.signer w) l1 =
            (Result.panic p, l2) →
          main w Args = ⟨Termination.panic p, [], l2⟩) ∧
        (∀ zoneId l2, GetZoneId w (main.dnsEndpoint w) zoneName projectId (main.signer w) l1 =
            (Result.ok zoneId, l2) →
          (∀ fqdn challenge, Args[1]? = some "present" → Args[2]? = some fqdn →
            Args[3]? = some challenge →
            (∀ e l3, Present w (main.dnsEndpoint w) zoneId projectId fqdn challenge
                (main.signer w) l2 = (Result.error e, l3) →
              main w Args = ⟨Termination.exit 1, [e], l3⟩) ∧
            (∀ p l3, Present w (main.dnsEndpoint w) zoneId projectId fqdn challenge
                (main.signer w) l2 = (Result.panic p, l3) →
              main w Args = ⟨Termination.panic p, [], l3⟩) ∧
            (∀ r l3, Present w (main.dnsEndpoint w) zoneId projectId fqdn challenge
                (main.signer w) l2 = (Result.ok r, l3) →
              main w Args = ⟨Termination.exit 0, [], l3⟩)) ∧
          (∀ fqdn challenge, Args[1]? = some "cleanup" → Args[2]? = some fqdn →
            Args[3]? = some challenge →
            (∀ e l3, Cleanup w (main.dnsEndpoint w) zoneId projectId fqdn challenge
                (main.signer w) l2 = (Result.error e, l3) →
              main w Args = ⟨Termination.exit 1, [e], l3⟩) ∧
            (∀ p l3, Cleanup w (main.dnsEndpoint w) zoneId projectId fqdn challenge
                (main.signer w) l2 = (Result.panic p, l3) →
              main w Args = ⟨Termination.panic p, [], l3⟩) ∧
            (∀ r l3, Cleanup w (main.dnsEndpoint w) zoneId projectId fqdn challenge
                (main.signer w) l2 = (Result.ok r, l3) →
              main w Args = ⟨Termination.exit 0, [], l3⟩)) ∧
          (∀ cmd, Args[1]? = some cmd → cmd = "present" ∨ cmd = "cleanup" →
            Args[3]? = none →
            main w Args =
              ⟨Termination.panic (Panic.indexOutOfRange 3 Args.length), [], l2⟩) ∧
          (∀ cmd, Args[1]? = some cmd → cmd ≠ "present" → cmd ≠ "cleanup" →
            main w Args = ⟨Termination.exit 0, [], l2⟩)))) ∧
    ((main w Args).termination = Termination.exit 1 →
      ∃ e, (main w Args).stdout = [e] ∧
        ((∃ l1, main.project w = (Result.error e, l1)) ∨
          main.zoneName w Args = Result.error e ∨
          (∃ projectId l1 zoneName l2, main.project w = (Result.ok projectId, l1) ∧
            main.zoneName w Args = Result.ok zoneName ∧
            GetZoneId w (main.dnsEndpoint w) zoneName projectId (main.signer w) l1 =
              (Result.error e, l2)) ∨
          (∃ projectId zoneId l2 fqdn challenge l3,
            main.resolve w Args = (Result.ok (projectId, zoneId), l2) ∧
            Args[2]? = some fqdn ∧ Args[3]? = some challenge ∧
            ((Args[1]? = some "present" ∧
                Present w (main.dnsEndpoint w) zoneId projectId fqdn challenge
                  (main.signer w) l2 = (Result.error e, l3)) ∨
              (Args[1]? = some "cleanup" ∧
                Cleanup w (main.dnsEndpoint w) zoneId projectId fqdn challenge
                  (main.signer w) l2 = (Result.error e, l3)))))) := by
  refine ⟨?_, ?_, ?_, ?_⟩
  · intro e l1 h1
    simp only [main_eq, main.resolve, h1]
  · intro p l1 h1
    simp only [main_eq, main.resolve, h1]
  · intro projectId l1 h1
    refine ⟨?_, ?_, ?_⟩
    · intro e h2
      simp only [main_eq, main.resolve, h1, h2]
    · intro p h2
      simp only [main_eq, main.resolve, h1, h2]
    · intro zoneName h2
      obtain ⟨a2, ha2⟩ := main_zoneName_args w Args zoneName h2
      refine ⟨?_, ?_, ?_⟩
      · intro e l2 h3
        simp only [main_eq, main.resolve, h1, h2, h3]
      · intro p l2 h3
        simp only [main_eq, main.resolve, h1, h2, h3]
      · intro zoneId l2 h3
        have hm : main w Args = main.report (main.dispatch w Args projectId zoneId l2) := by
          simp only [main_eq, main.resolve, h1, h2, h3]
        refine ⟨?_, ?_, ?_, ?_⟩
        · intro fqdn challenge c1 c2 c3
          rw [hm, main_dispatch_present w Args projectId zoneId fqdn challenge l2 c1 c2 c3]
          refine ⟨?_, ?_, ?_⟩ <;> intro x l3 h4 <;> rw [h4] <;> rfl
        · intro fqdn challenge c1 c2 c3
          rw [hm, main_dispatch_cleanup w Args projectId zoneId fqdn challenge l2 c1 c2 c3]
          refine ⟨?_, ?_, ?_⟩ <;> intro x l3 h4 <;> rw [h4] <;> rfl
        · intro cmd c1 hc c3
          rw [hm, main_dispatch_missing w Args projectId zoneId cmd a2 l2 c1 hc ha2 c3]
          rfl
        · intro cmd c1 hp hc
          rw [hm, main_dispatch_other w Args projectId zoneId cmd a2 l2 c1 hp hc ha2]
          rfl
  · intro hexit
    rw [main_eq] at hexit ⊢
    unfold main.resolve at hexit ⊢
    rcases h1 : main.project w with ⟨(pid | e | p), l1⟩
    · rw [h1] at hexit
      simp only at hexit ⊢
      rcases h2 : main.zoneName w Args with zn | e | p
      · rw [h2] at hexit
        simp only at hexit ⊢
        rcases h3 : GetZoneId w (main.dnsEndpoint w) zn pid (main.signer w) l1
          with ⟨(zid | e | p), l2⟩
        · rw [h3] at hexit
          simp only at hexit ⊢
          rcases h4 : main.dispatch w Args pid zid l2 with ⟨(r | e | p), l3⟩
          · rw [h4] at hexit; exact absurd hexit (by simp [main.report])
          · obtain ⟨fqdn, challenge, c2, c3, hcase⟩ :=
              main_dispatch_error w Args pid zid e l2 l3 h4
            exact ⟨e, rfl, Or.inr (Or.inr (Or.inr
              ⟨pid, zid, l2, fqdn, challenge, l3, rfl, c2, c3, hcase⟩))⟩
          · rw [h4] at hexit; exact absurd hexit (by simp [main.report])
        · exact ⟨e, rfl, Or.inr (Or.inr (Or.inl ⟨pid, l1, zn, l2, rfl, rfl, h3⟩))⟩
        · rw [h3] at hexit; exact absurd hexit (by simp)
      · exact ⟨e, rfl, Or.inr (Or.inl rfl)⟩
      · rw [h2] at hexit; exact absurd hexit (by simp)
    · exact ⟨e, rfl, Or.inl ⟨l1, rfl⟩⟩
    · rw [h1] at hexit; exact absurd hexit (by simp)

/-- C8 fails as stated: with no project name configured and no positional argument
no stage returns an error, yet the run ends neither with status 0 nor with status 1
(reading `os.Args[2]` panics, status 2); the same happens after a successful zone
lookup when `present` is given without a challenge. -/
theorem main_missing_argument_counterexample :
    main.project bareWorld = (Result.ok "", []) ∧
      main.zoneName bareWorld ["helper"] = Result.panic (Panic.indexOutOfRange 2 1) ∧
      main bareWorld ["helper"] = ⟨Termination.panic (Panic.indexOutOfRange 2 1), [], []⟩ ∧
      (main bareWorld ["helper"]).termination.status = 2 ∧
      (main sampleWorld ["helper", "present", "example.com."]).termination =
        Termination.panic (Panic.indexOutOfRange 3 3) ∧
      (main sampleWorld ["helper", "present", "example.com."]).stdout = [] := by
  refine ⟨by decide, by decide, by decide, by decide, by decide, by decide⟩

theorem main_resolve_log (w : World) (Args : List String) :
    ∃ projectId, ∀ r l, main.resolve w Args = (r, l) →
      (l = (main.project w).2 ∧ ∀ v, r ≠ Result.ok v) ∨
      (l = (main.project w).2 ++
          [⟨"GET", main.dnsEndpoint w ++ "/v2/zones", projectId, "", main.signer w⟩] ∧
        ∀ v, r = Result.ok v → v.1 = projectId) := by
  unfold main.resolve
  rcases h1 : main.project w with ⟨(pid | e | p), l1⟩
  · refine ⟨pid, ?_⟩
    simp only
    rcases h2 : main.zoneName w Args with zn | e | p
    · simp only
      have hlog := GetZoneId_log w (main.dnsEndpoint w) zn pid (main.signer w) l1
      rcases h3 : GetZoneId w (main.dnsEndpoint w) zn pid (main.signer w) l1
        with ⟨(zid | e | p), l2⟩
      all_goals
        rw [h3] at hlog
        simp only at hlog ⊢
        intro r l h
        simp only [Prod.mk.injEq] at h
        obtain ⟨rfl, rfl⟩ := h
        right
        refine ⟨hlog, ?_⟩
        intro v hv
      · rw [← Result.ok.inj hv]
      · exact absurd hv (by simp)
      · exact absurd hv (by simp)
    all_goals
      simp only
      intro r l h
      simp only [Prod.mk.injEq] at h
      obtain ⟨rfl, rfl⟩ := h
      exact Or.inl ⟨rfl, fun v hv => by simp at hv⟩
  all_goals
    refine ⟨"", ?_⟩
    simp only
    intro r l h
    simp only [Prod.mk.injEq] at h
    obtain ⟨rfl, rfl⟩ := h
    exact Or.inl ⟨rfl, fun v hv => by simp at hv⟩

theorem main_report_calls {α : Type} (x : Result α × List Call) :
    (main.report x).calls = x.2 := by
  rcases x with ⟨(r | e | p), l⟩ <;> rfl

theorem main_dispatch_log (w : World) (Args : List String) (projectId zoneId : String)
    (log : List Call) :
    ∃ fqdn challenge recordId D,
      (main.dispatch w Args projectId zoneId log).2 = log ++ D ∧
      D <+:
        (if Args[1]? = some "present" then
          [⟨"POST", main.dnsEndpoint w ++ "/v2/zones/" ++ zoneId ++ "/recordsets", projectId,
            Present.payload fqdn challenge, main.signer w⟩]
        else if Args[1]? = some "cleanup" then
          [⟨"GET", main.dnsEndpoint w ++ "/v2/zones/" ++ zoneId ++ "/recordsets", projectId,
              "", main.signer w⟩,
            ⟨"DELETE", main.dnsEndpoint w ++ "/v2/zones/" ++ zoneId ++ "/recordsets/"
              ++ recordId, projectId, "", main.signer w⟩]
        else []) := by
  have hne : ¬ ("cleanup" = "present") := by decide
  unfold main.dispatch
  rcases h1 : Args[1]? with _ | cmd
  · exact ⟨"", "", "", [], by simp, ⟨_, List.nil_append _⟩⟩
  · rcases h2 : Args[2]? with _ | fqdn
    · exact ⟨"", "", "", [], by simp, ⟨_, List.nil_append _⟩⟩
    · simp only
      by_cases hp : cmd = "present"
      · subst hp
        simp only [if_true]
        rcases h3 : Args[3]? with _ | c
        · exact ⟨"", "", "", [], by simp, ⟨_, List.nil_append _⟩⟩
        · exact ⟨fqdn, c, "", _, Present_log _ _ _ _ _ _ _ _, ⟨[], List.append_nil _⟩⟩
      · by_cases hc : cmd = "cleanup"
        · subst hc
          simp only [if_neg hne, if_true, Option.some.injEq]
          rcases h3 : Args[3]? with _ | c
          · exact ⟨"", "", "", [], by simp, ⟨_, List.nil_append _⟩⟩
          · simp only
            rcases Cleanup_log w (main.dnsEndpoint w) zoneId projectId fqdn c (main.signer w)
              log with h | ⟨rid, h⟩
            · exact ⟨fqdn, c, "", _, h, ⟨_, rfl⟩⟩
            · exact ⟨fqdn, c, rid, _, h, ⟨[], List.append_nil _⟩⟩
        · simp only [if_neg hp, if_neg hc, Option.some.injEq]
          exact ⟨"", "", "", [], by simp, ⟨[], rfl⟩⟩

theorem main_calls (w : World) (Args : List String) :
    ∃ projectId zoneId fqdn challenge recordId,
      (main w Args).calls <+:
        (if w.Getenv "SBC_PROJECT_NAME" ≠ "" then
          [⟨"GET", main.authEndpoint w ++ "/v3/projects", "", "", main.signer w⟩]
        else []) ++
        [⟨"GET", main.dnsEndpoint w ++ "/v2/zones", projectId, "", main.signer w⟩] ++
        (if Args[1]? = some "present" then
          [⟨"POST", main.dnsEndpoint w ++ "/v2/zones/" ++ zoneId ++ "/recordsets", projectId,
            Present.payload fqdn challenge, main.signer w⟩]
        else if Args[1]? = some "cleanup" then
          [⟨"GET", main.dnsEndpoint w ++ "/v2/zones/" ++ zoneId ++ "/recordsets", projectId,
              "", main.signer w⟩,
            ⟨"DELETE", main.dnsEndpoint w ++ "/v2/zones/" ++ zoneId ++ "/recordsets/"
              ++ recordId, projectId, "", main.signer w⟩]
        else []) := by
  obtain ⟨pid0, hres⟩ := main_resolve_log w Args
  rw [main_project_log] at hres
  rw [main_eq]
  rcases hr : main.resolve w Args with ⟨(⟨pid, zid⟩ | e | p), l⟩
  · obtain ⟨f, c, rid, D, hD, hpre⟩ := main_dispatch_log w Args pid zid l
    rcases hres _ _ hr with ⟨_, hno⟩ | ⟨hl, hpid⟩
    · exact absurd rfl (hno (pid, zid))
    · have hpid0 : pid = pid0 := hpid (pid, zid) rfl
      subst hpid0
      refine ⟨pid, zid, f, c, rid, ?_⟩
      simp only [main_report_calls]
      rw [hD, hl]
      obtain ⟨t, ht⟩ := hpre
      exact ⟨t, by rw [← ht, List.append_assoc _ D t]⟩
  all_goals
    refine ⟨pid0, "", "", "", "", ?_⟩
    simp only
    rcases hres _ _ hr with ⟨hl, _⟩ | ⟨hl, _⟩
    · rw [hl]; exact ⟨_, (List.append_assoc _ _ _).symm⟩
    · rw [hl]; exact ⟨_, rfl⟩

/-- C9: a run of `main` makes at most 4 `CallApi` invocations, and they are an initial
part of the sequence project lookup (only with a project name configured), zone
lookup, then for `present` the POST and for `cleanup` the recordset GET followed by
the DELETE; 4 invocations happen only for `cleanup` with a project name configured,
and `present` makes at most 3. -/
theorem main_at_most_four_calls (w : World) (Args : List String) :
    (main w Args).calls.length ≤ 4 ∧
    ((main w Args).calls.length = 4 →
      Args[1]? = some "cleanup" ∧ w.Getenv "SBC_PROJECT_NAME" ≠ "") ∧
    (Args[1]? = some "present" → (main w Args).calls.length ≤ 3) ∧
    ∃ projectId zoneId fqdn challenge recordId,
      (main w Args).calls <+:
        (if w.Getenv "SBC_PROJECT_NAME" ≠ "" then
          [⟨"GET", main.authEndpoint w ++ "/v3/projects", "", "", main.signer w⟩]
        else []) ++
        [⟨"GET", main.dnsEndpoint w ++ "/v2/zones", projectId, "", main.signer w⟩] ++
        (if Args[1]? = some "present" then
          [⟨"POST", main.dnsEndpoint w ++ "/v2/zones/" ++ zoneId ++ "/recordsets", projectId,
            Present.payload fqdn challenge, main.signer w⟩]
        else if Args[1]? = some "cleanup" then
          [⟨"GET", main.dnsEndpoint w ++ "/v2/zones/" ++ zoneId ++ "/recordsets", projectId,
              "", main.signer w⟩,
            ⟨"DELETE", main.dnsEndpoint w ++ "/v2/zones/" ++ zoneId ++ "/recordsets/"
              ++ recordId, projectId, "", main.signer w⟩]
        else []) := by
  obtain ⟨pid, zid, f, c, rid, hpre⟩ := main_calls w Args
  have hlen := hpre.length_le
  refine ⟨?_, ?_, ?_, ⟨pid, zid, f, c, rid, hpre⟩⟩
  · revert hlen
    by_cases hn : w.Getenv "SBC_PROJECT_NAME" = "" <;>
      by_cases hp : Args[1]? = some "present" <;>
      by_cases hc : Args[1]? = some "cleanup" <;>
      simp [hn, hp, hc] <;> omega
  · revert hlen
    by_cases hn : w.Getenv "SBC_PROJECT_NAME" = "" <;>
      by_cases hp : Args[1]? = some "present" <;>
      by_cases hc : Args[1]? = some "cleanup" <;>
      simp [hn, hp, hc] <;> omega
  · intro hp
    revert hlen
    by_cases hn : w.Getenv "SBC_PROJECT_NAME" = ""
    · simp only [hn, hp, ne_eq, not_true_eq_false, if_false, if_true, List.nil_append,
        List.singleton_append, List.length_cons, List.length_nil]
      omega
    · simp only [hn, hp, ne_eq, not_false_eq_true, if_true, List.singleton_append,
        List.length_append, List.length_cons, List.length_nil]
      omega

theorem CallApi_panic (w : World) (method endpoint projectId payload : String) (s : Signer)
    (log : List Call) (p : Panic)
    (h : (CallApi w method endpoint projectId payload s log).1 = Result.panic p) :
    p = Panic.nilDereference := by
  simp only [CallApi] at h
  split at h
  · exact (Result.panic.inj h).symm
  · exact absurd h (by simp)
  · exact absurd h (by simp)

theorem GetProjectId_scan_no_panic (X : String) (ps : List Project) (p : Panic) :
    GetProjectId.scan X ps ≠ Result.panic p := by
  induction ps with
  | nil => simp [GetProjectId.scan]
  | cons a as ih =>
    rw [GetProjectId.scan]
    split
    · simp
    · exact ih

theorem GetZoneId_scan_no_panic (n : String) (zs : List Zone) (p : Panic) :
    GetZoneId.scan n zs ≠ Result.panic p := by
  induction zs with
  | nil => simp [GetZoneId.scan]
  | cons a as ih =>
    rw [GetZoneId.scan]
    split
    · simp
    · exact ih

theorem GetProjectId_panic (w : World) (authEndpoint projectName : String) (s : Signer)
    (log : List Call) (p : Panic)
    (h : (GetProjectId w authEndpoint projectName s log).1 = Result.panic p) :
    p = Panic.nilDereference := by
  have hc := CallApi_panic w "GET" (authEndpoint ++ "/v3/projects") "" "" s log p
  unfold GetProjectId at h
  rcases hcall : CallApi w "GET" (authEndpoint ++ "/v3/projects") "" "" s log
    with ⟨(b | e | q), l1⟩ <;> rw [hcall] at h hc <;> simp only at h hc
  · exact absurd h (GetProjectId_scan_no_panic _ _ _)
  · exact absurd h (by simp)
  · exact hc h

theorem GetZoneId_panic (w : World) (dnsEndpoint zoneName projectId : String) (s : Signer)
    (log : List Call) (p : Panic)
    (h : (GetZoneId w dnsEndpoint zoneName projectId s log).1 = Result.panic p) :
    p = Panic.nilDereference := by
  have hc := CallApi_panic w "GET" (dnsEndpoint ++ "/v2/zones") projectId "" s log p
  unfold GetZoneId at h
  rcases hcall : CallApi w "GET" (dnsEndpoint ++ "/v2/zones") projectId "" s log
    with ⟨(b | e | q), l1⟩ <;> rw [hcall] at h hc <;> simp only at h hc
  · exact absurd h (GetZoneId_scan_no_panic _ _ _)
  · exact absurd h (by simp)
  · exact hc h

theorem main_resolve_panic (w : World) (Args : List String) (fqdn : String) (p : Panic)
    (h2 : Args[2]? = some fqdn) (h : (main.resolve w Args).1 = Result.panic p) :
    p = Panic.nilDereference := by
  unfold main.resolve at h
  rcases h1 : main.project w with ⟨(pid | e | q), l1⟩ <;> rw [h1] at h <;> simp only at h
  · have hz : main.zoneName w Args = match w.EffectiveTLDPlusOne (TrimRight fqdn ".") with
        | Except.error e => Result.error e
        | Except.ok zoneName => Result.ok (zoneName ++ ".") := by
      simp only [main.zoneName, h2]
    rcases h3 : w.EffectiveTLDPlusOne (TrimRight fqdn ".") with e | zn <;>
      rw [h3] at hz <;> simp only at hz <;> rw [hz] at h <;> simp only at h
    · exact absurd h (by simp)
    · have hg := GetZoneId_panic w (main.dnsEndpoint w) (zn ++ ".") pid (main.signer w) l1 p
      rcases h4 : GetZoneId w (main.dnsEndpoint w) (zn ++ ".") pid (main.signer w) l1
        with ⟨(zid | e | q), l2⟩ <;> rw [h4] at h hg <;> simp only at h hg
      · exact absurd h (by simp)
      · exact absurd h (by simp)
      · exact hg (by rw [Result.panic.inj h])
  · exact absurd h (by simp)
  · have hp : (main.project w).1 = Result.panic p := by rw [h1, Result.panic.inj h]
    unfold main.project at hp
    split at hp
    · exact GetProjectId_panic _ _ _ _ _ _ hp
    · exact absurd hp (by simp)

theorem main_resolve_args (w : World) (Args Args2 : List String) (fqdn : String)
    (h : Args[2]? = some fqdn) (h2 : Args2[2]? = some fqdn) :
    main.resolve w Args = main.resolve w Args2 := by
  have hz : main.zoneName w Args = main.zoneName w Args2 := by
    simp only [main.zoneName, h, h2]
  simp only [main.resolve, hz]

/-- C10: with exactly two positional arguments and a sub-command that is neither
`present` nor `cleanup`, the run never reads the missing challenge argument: no
index-out-of-range panic ends it and it is the same run as with any challenge
appended; every call it makes is a GET (so no POST and no DELETE is issued), and once
project and zone are resolved it exits with status 0, printing nothing. -/
theorem main_unrecognized_subcommand (w : World) (prog cmd fqdn : String)
    (hp : cmd ≠ "present") (hc : cmd ≠ "cleanup") :
    (∀ c ∈ (main w [prog, cmd, fqdn]).calls,
      c.method = "GET" ∧ c.method ≠ "POST" ∧ c.method ≠ "DELETE") ∧
    (∀ i n, (main w [prog, cmd, fqdn]).termination ≠
      Termination.panic (Panic.indexOutOfRange i n)) ∧
    (∀ challenge, main w [prog, cmd, fqdn, challenge] = main w [prog, cmd, fqdn]) ∧
    (∀ projectId zoneId l,
      main.resolve w [prog, cmd, fqdn] = (Result.ok (projectId, zoneId), l) →
      main w [prog, cmd, fqdn] = ⟨Termination.exit 0, [], l⟩) := by
  have hrun : ∀ Args : List String, Args[1]? = some cmd → Args[2]? = some fqdn →
      main w Args =
        match main.resolve w Args with
        | (Result.ok _, l) => ⟨Termination.exit 0, [], l⟩
        | (Result.error e, l) => ⟨Termination.exit 1, [e], l⟩
        | (Result.panic p, l) => ⟨Termination.panic p, [], l⟩ := by
    intro Args h1 h2
    rw [main_eq]
    rcases main.resolve w Args with ⟨(⟨pid, zid⟩ | e | p), l⟩
    · simp only [main_dispatch_other w Args pid zid cmd fqdn l h1 hp hc h2, main.report]
    · rfl
    · rfl
  refine ⟨?_, ?_, ?_, ?_⟩
  · intro c hmem
    obtain ⟨pid, zid, f, ch, rid, hpre⟩ := main_calls w [prog, cmd, fqdn]
    have hin := hpre.subset hmem
    have h1 : ¬ (cmd = "present") := hp
    have h2 : ¬ (cmd = "cleanup") := hc
    simp only [List.getElem?_cons_succ, List.getElem?_cons_zero, Option.some.injEq, h1, h2,
      if_false, List.append_nil, List.mem_append, List.mem_singleton] at hin
    rcases hin with hin | hin
    · split at hin
      · rw [List.mem_singleton] at hin
        subst hin
        exact ⟨rfl, (by decide : "GET" ≠ "POST"), (by decide : "GET" ≠ "DELETE")⟩
      · exact absurd hin (List.not_mem_nil c)
    · subst hin
      exact ⟨rfl, (by decide : "GET" ≠ "POST"), (by decide : "GET" ≠ "DELETE")⟩
  · intro i n hterm
    rw [hrun [prog, cmd, fqdn] rfl rfl] at hterm
    rcases hres : main.resolve w [prog, cmd, fqdn] with ⟨(v | e | p), l⟩ <;>
      rw [hres] at hterm <;> simp only at hterm
    · exact absurd hterm (by simp)
    · exact absurd hterm (by simp)
    · have hnil := main_resolve_panic w [prog, cmd, fqdn] fqdn p rfl (by rw [hres])
      rw [hnil] at hterm
      exact absurd hterm (by simp)
  · intro challenge
    rw [hrun [prog, cmd, fqdn, challenge] rfl rfl, hrun [prog, cmd, fqdn] rfl rfl,
      main_resolve_args w [prog, cmd, fqdn, challenge] [prog, cmd, fqdn] fqdn rfl rfl]
  · intro pid zid l hres
    rw [hrun [prog, cmd, fqdn] rfl rfl, hres]

/-- C10 at the sample provider: the sub-command `renew` with only an FQDN resolves
project and zone with two GET calls and exits silently with status 0. -/
theorem main_unrecognized_subcommand_witness :
    ("renew" ≠ "present" ∧ "renew" ≠ "cleanup") ∧
      (∀ c ∈ (main sampleWorld ["helper", "renew", "example.com."]).calls,
        c.method = "GET" ∧ c.method ≠ "POST" ∧ c.method ≠ "DELETE") ∧
      main sampleWorld ["helper", "renew", "example.com."] =
        ⟨Termination.exit 0, [],
          [⟨"GET", "https://iam.ru-moscow-1.hc.sbercloud.ru/v3/projects", "", "", sampleSigner⟩,
            ⟨"GET", "https://dns.ru-moscow-1.hc.sbercloud.ru/v2/zones", "p-2", "",
              sampleSigner⟩]⟩ :=
  ⟨by decide,
    (main_unrecognized_subcommand sampleWorld "helper" "renew" "example.com."
      (by decide) (by decide)).1,
    by decide⟩

/-! ## The request body of `Present` as JSON -/

theorem JSON.scanString_plain (cs : List Char) (h : ∀ c ∈ cs, JSON.plainChar c)
    (acc : List Nat) (tail : List Char) :
    JSON.scanString JSON.StrState.plain acc (cs ++ tail) =
      JSON.scanString JSON.StrState.plain ((cs.map Char.toNat).reverse ++ acc) tail := by
  induction cs generalizing acc with
  | nil => rfl
  | cons c cs ih =>
    obtain ⟨h1, h2, h3⟩ := h c (List.mem_cons_self _ _)
    rw [List.cons_append, JSON.scanString, if_neg h1, if_neg h2, if_neg (Nat.not_lt.mpr h3),
      ih (fun x hx => h x (List.mem_cons_of_mem _ hx))]
    simp

theorem JSON.unitChar_toNat (c : Char) : JSON.unitChar c.toNat = c := by
  have hv := c.valid
  unfold JSON.unitChar
  have hn : ¬ (0xD800 ≤ c.toNat ∧ c.toNat < 0xE000) := by
    rintro ⟨h1, h2⟩
    rcases hv with h | ⟨h, _⟩
    · exact absurd h1 (Nat.not_le.mpr h)
    · exact absurd h2 (Nat.not_lt.mpr h)
  rw [if_neg hn]
  exact Char.ofNat_toNat c

theorem JSON.decodeUnits_toNat (cs : List Char) :
    JSON.decodeUnits none (cs.map Char.toNat) = cs := by
  induction cs with
  | nil => rfl
  | cons c cs ih =>
    have hv := c.valid
    have hn : ¬ (0xD800 ≤ c.toNat ∧ c.toNat < 0xDC00) := by
      rintro ⟨h1, h2⟩
      rcases hv with h | ⟨h, _⟩
      · exact absurd h1 (Nat.not_le.mpr h)
      · have : c.toNat < 0xDC00 := h2
        have h' : 0xDFFF < c.toNat := h
        omega
    rw [List.map_cons, JSON.decodeUnits, if_neg hn, ih, JSON.unitChar_toNat]

theorem JSON.unitsString_toNat (s : String) : JSON.unitsString (s.data.map Char.toNat) = s := by
  unfold JSON.unitsString
  rw [JSON.decodeUnits_toNat]


theorem Present.payload_data (f c : String) :
    (Present.payload f c).data =
      '\x7b' :: '"' :: 'n' :: 'a' :: 'm' :: 'e' :: '"' :: ':' :: '"' :: (f.data ++
        ('"' :: ',' :: '"' :: 't' :: 'y' :: 'p' :: 'e' :: '"' :: ':' :: '"' :: 'T' :: 'X' ::
          'T' :: '"' :: ',' :: '"' :: 'r' :: 'e' :: 'c' :: 'o' :: 'r' :: 'd' :: 's' :: '"' ::
          ':' :: '[' :: '"' :: '\\' :: '"' :: (c.data ++ ['\\', '"', '"', ']', '\x7d']))) := by
  simp only [Present.payload, String.data_append, List.append_assoc, List.cons_append,
    List.nil_append]

theorem JSON.skipWs_cons (c : Char) (cs : List Char) :
    JSON.skipWs (c :: cs) = if JSON.isWs c = true then JSON.skipWs cs else c :: cs := by
  unfold JSON.skipWs
  rw [List.dropWhile_cons]

theorem JSON.parseValue_shape (n : Nat) (A B : List Char) (u1 u2 : List Nat)
    (hA : JSON.scanString JSON.StrState.plain [] A =
      some (u1, ',' :: '"' :: 't' :: 'y' :: 'p' :: 'e' :: '"' :: ':' :: '"' :: 'T' :: 'X' ::
        'T' :: '"' :: ',' :: '"' :: 'r' :: 'e' :: 'c' :: 'o' :: 'r' :: 'd' :: 's' :: '"' ::
        ':' :: '[' :: '"' :: B))
    (hB : JSON.scanString JSON.StrState.plain [] B = some (u2, [']', '\x7d'])) :
    JSON.parseValue (n + 7)
        ('\x7b' :: '"' :: 'n' :: 'a' :: 'm' :: 'e' :: '"' :: ':' :: '"' :: A) =
      some (JSON.object [("name", JSON.string (JSON.unitsString u1)),
        ("type", JSON.string "TXT"),
        ("records", JSON.array [JSON.string (JSON.unitsString u2)])], []) := by
  simp +decide [JSON.parseValue, JSON.parseMembers, JSON.parseElements, JSON.skipWs_cons,
    JSON.isWs, JSON.scanString, hA, hB]

theorem JSON.scanString_close (cs : List Char) (h : ∀ c ∈ cs, JSON.plainChar c)
    (acc : List Nat) (rest : List Char) :
    JSON.scanString JSON.StrState.plain acc (cs ++ '"' :: rest) =
      some (acc.reverse ++ cs.map Char.toNat, rest) := by
  rw [JSON.scanString_plain cs h, JSON.scanString, if_pos rfl, List.reverse_append,
    List.reverse_reverse]

theorem JSON.scanString_quoted (cs : List Char) (h : ∀ c ∈ cs, JSON.plainChar c)
    (rest : List Char) :
    JSON.scanString JSON.StrState.plain [] ('\\' :: '"' :: (cs ++ '\\' :: '"' :: '"' :: rest)) =
      some (('"' :: (cs ++ ['"'])).map Char.toNat, rest) := by
  have h1 : JSON.scanString JSON.StrState.plain [] ('\\' :: '"' :: (cs ++ '\\' :: '"' :: '"' :: rest)) =
      JSON.scanString JSON.StrState.plain [34] (cs ++ '\\' :: '"' :: '"' :: rest) := rfl
  have h2 : ∀ acc : List Nat, JSON.scanString JSON.StrState.plain acc ('\\' :: '"' :: '"' :: rest) =
      some ((34 :: acc).reverse, rest) := fun _ => rfl
  rw [h1, JSON.scanString_plain cs h, h2]
  simp

/-- The payload of `Present` parses to the expected document. -/
theorem JSON.parse_payload (f c : String)
    (hf : ∀ x ∈ f.data, JSON.plainChar x) (hc : ∀ x ∈ c.data, JSON.plainChar x) :
    JSON.parse (Present.payload f c) =
      some (JSON.object [("name", JSON.string f), ("type", JSON.string "TXT"),
        ("records", JSON.array [JSON.string ("\"" ++ c ++ "\"")])]) := by
  have hlen : (Present.payload f c).length + 1 = (f.length + c.length + 37) + 7 := by
    rw [String.length, Present.payload_data]
    simp only [List.length_cons, List.length_append, List.length_nil, String.length]
    omega
  have hA := JSON.scanString_close f.data hf []
    (',' :: '"' :: 't' :: 'y' :: 'p' :: 'e' :: '"' :: ':' :: '"' :: 'T' :: 'X' ::
        'T' :: '"' :: ',' :: '"' :: 'r' :: 'e' :: 'c' :: 'o' :: 'r' :: 'd' :: 's' :: '"' ::
        ':' :: '[' :: '"' :: '\\' :: '"' :: (c.data ++ ['\\', '"', '"', ']', '\x7d']))
  have hB := JSON.scanString_quoted c.data hc [']', '\x7d']
  have hv := JSON.parseValue_shape (f.length + c.length + 37) _ _ _ _ hA hB
  have hq : JSON.unitsString (('"' :: (c.data ++ ['"'])).map Char.toNat) = "\"" ++ c ++ "\"" := by
    have := JSON.unitsString_toNat ("\"" ++ c ++ "\"")
    simpa [String.data_append] using this
  rw [JSON.parse, hlen, Present.payload_data, hv]
  simp only [List.reverse_nil, List.nil_append, JSON.unitsString_toNat, hq, JSON.skipWs,
    List.dropWhile_nil, if_true]


theorem utf8Decode_encodeChar (c : Char) (bs : List Nat) :
    utf8Decode none (utf8EncodeChar c ++ bs) = c :: utf8Decode none bs := by
  have hv : c.toNat < 0xD800 ∨ (0xDFFF < c.toNat ∧ c.toNat < 0x110000) := c.valid
  have hc : Char.ofNat c.toNat = c := Char.ofNat_toNat c
  unfold utf8EncodeChar
  generalize c.toNat = n at hv hc
  by_cases h1 : n < 0x80
  · rw [if_pos h1, List.singleton_append, utf8Decode, utf8Start, if_pos h1, hc]
  · rw [if_neg h1]
    by_cases h2 : n < 0x800
    · rw [if_pos h2]
      simp only [List.cons_append, List.nil_append]
      rw [utf8Decode, utf8Start, if_neg (by omega), if_neg (by omega), if_pos (by omega)]
      dsimp only
      rw [utf8Decode]
      dsimp only
      rw [if_pos ⟨by omega, by omega⟩, if_pos rfl]
      have : (192 + n / 64 - 192) * 64 + (128 + n % 64 - 128) = n := by omega
      rw [this, hc]
    · rw [if_neg h2]
      by_cases h3 : n < 0x10000
      · rw [if_pos h3]
        simp only [List.cons_append, List.nil_append]
        rw [utf8Decode, utf8Start, if_neg (by omega), if_neg (by omega), if_neg (by omega),
          if_pos (by omega)]
        dsimp only
        rw [utf8Decode]
        dsimp only
        rw [if_pos ⟨by split <;> omega, by split <;> omega⟩, if_neg (by decide)]
        rw [utf8Decode]
        dsimp only
        rw [if_pos ⟨by omega, by omega⟩, if_pos rfl]
        have : ((224 + n / 4096 - 224) * 64 + (128 + n / 64 % 64 - 128)) * 64 +
            (128 + n % 64 - 128) = n := by omega
        rw [this, hc]
      · rw [if_neg h3]
        simp only [List.cons_append, List.nil_append]
        rw [utf8Decode, utf8Start, if_neg (by omega), if_neg (by omega), if_neg (by omega),
          if_neg (by omega), if_pos (by omega)]
        dsimp only
        rw [utf8Decode]
        dsimp only
        rw [if_pos ⟨by split <;> omega, by split <;> omega⟩, if_neg (by decide)]
        rw [utf8Decode]
        dsimp only
        rw [if_pos ⟨by omega, by omega⟩, if_neg (by decide)]
        rw [utf8Decode]
        dsimp only
        rw [if_pos ⟨by omega, by omega⟩, if_pos rfl]
        have : (((240 + n / 262144 - 240) * 64 + (128 + n / 4096 % 64 - 128)) * 64 +
            (128 + n / 64 % 64 - 128)) * 64 + (128 + n % 64 - 128) = n := by omega
        rw [this, hc]

theorem utf8Decode_encodeChars (cs : List Char) :
    utf8Decode none (utf8EncodeChars cs) = cs := by
  induction cs with
  | nil => rfl
  | cons c cs ih => rw [utf8EncodeChars, utf8Decode_encodeChar, ih]

theorem utf8EncodeChars_append (a b : List Char) :
    utf8EncodeChars (a ++ b) = utf8EncodeChars a ++ utf8EncodeChars b := by
  induction a with
  | nil => rfl
  | cons c cs ih =>
    rw [List.cons_append, utf8EncodeChars, utf8EncodeChars, ih, List.append_assoc]

theorem utf8Encode_append (a b : String) :
    utf8Encode (a ++ b) = utf8Encode a ++ utf8Encode b := by
  simp only [utf8Encode, String.data_append, utf8EncodeChars_append]

theorem Present.payloadBytes_encode (f c : String) :
    Present.payloadBytes (utf8Encode f) (utf8Encode c) = utf8Encode (Present.payload f c) := by
  simp only [Present.payloadBytes, Present.payload, utf8Encode_append]

theorem JSON.parseBytes_encode (s : String) : JSON.parseBytes (utf8Encode s) = JSON.parse s := by
  rw [JSON.parseBytes, utf8Encode, utf8Decode_encodeChars]

theorem createdRecord_payload (f c id : String)
    (hf : ∀ x ∈ f.data, JSON.plainChar x) (hc : ∀ x ∈ c.data, JSON.plainChar x) :
    createdRecord (Present.payloadBytes (utf8Encode f) (utf8Encode c)) id =
      some ⟨id, f, "TXT", ["\"" ++ c ++ "\""], "ACTIVE"⟩ := by
  rw [createdRecord, Present.payloadBytes_encode, JSON.parseBytes_encode,
    JSON.parse_payload f c hf hc]
  rfl

/-- C7, as the code has it.  Let FQDN and challenge be valid UTF-8 with no double
quote, no backslash and no control character.  The body `Present` sends is then a
JSON document whose `name` decodes to the FQDN, whose `type` is `TXT` and whose
`records` array decodes to exactly one string, the challenge wrapped in literal double
quotes, which is the string `GetRecordId` compares a record's sole value against.  So
the record created from that body, once listed ACTIVE by the provider with no earlier
ACTIVE TXT record of that name and value before it, is the record `GetRecordId` finds
and the one `Cleanup` issues its single DELETE for; and when no other listed record
carries that name/value pair, no TXT record with that pair is left in the listing
apart from the deleted one. -/
theorem Present_Cleanup_agree (fqdn challenge : String)
    (hf : ∀ x ∈ fqdn.data, JSON.plainChar x) (hc : ∀ x ∈ challenge.data, JSON.plainChar x) :
    utf8Encode (Present.payload fqdn challenge) =
      Present.payloadBytes (utf8Encode fqdn) (utf8Encode challenge) ∧
    JSON.parseBytes (Present.payloadBytes (utf8Encode fqdn) (utf8Encode challenge)) =
      some (JSON.object [("name", JSON.string fqdn), ("type", JSON.string "TXT"),
        ("records", JSON.array [JSON.string ("\"" ++ challenge ++ "\"")])]) ∧
    (∀ (w : World) (dnsEndpoint zoneId projectId body id : String) (s : Signer)
        (log : List Call) (created : Record) (pre post : List Record),
      createdRecord (Present.payloadBytes (utf8Encode fqdn) (utf8Encode challenge)) id =
        some created →
      w.Do log ⟨"GET", dnsEndpoint ++ "/v2/zones/" ++ zoneId ++ "/recordsets", projectId,
        "", s⟩ = Reply.body body →
      (w.UnmarshalRecords body).Records = pre ++ created :: post →
      (∀ x ∈ pre, ¬ (x.Status = "ACTIVE" ∧ x.Name = fqdn ∧ x.Type_ = "TXT" ∧
        x.Records = ["\"" ++ challenge ++ "\""])) →
      created = ⟨id, fqdn, "TXT", ["\"" ++ challenge ++ "\""], "ACTIVE"⟩ ∧
      (GetRecordId w dnsEndpoint zoneId projectId fqdn challenge s log).1 =
        Result.ok created.Id ∧
      (Cleanup w dnsEndpoint zoneId projectId fqdn challenge s log).2 =
        log ++ [⟨"GET", dnsEndpoint ++ "/v2/zones/" ++ zoneId ++ "/recordsets",
            projectId, "", s⟩,
          ⟨"DELETE", dnsEndpoint ++ "/v2/zones/" ++ zoneId ++ "/recordsets/" ++ created.Id,
            projectId, "", s⟩] ∧
      ((∀ x ∈ pre ++ post, ¬ (x.Name = fqdn ∧ x.Type_ = "TXT" ∧
          x.Records = ["\"" ++ challenge ++ "\""])) →
        ∀ x ∈ pre ++ created :: post, x.Id ≠ created.Id →
          ¬ (x.Name = fqdn ∧ x.Type_ = "TXT" ∧
            x.Records = ["\"" ++ challenge ++ "\""]))) := by
  refine ⟨(Present.payloadBytes_encode fqdn challenge).symm, ?_, ?_⟩
  · rw [Present.payloadBytes_encode, JSON.parseBytes_encode,
      JSON.parse_payload fqdn challenge hf hc]
  · intro w dnsEndpoint zoneId projectId body id s log created pre post hcreated hdo hrs hpre
    rw [createdRecord_payload fqdn challenge id hf hc] at hcreated
    have hcr : created = ⟨id, fqdn, "TXT", ["\"" ++ challenge ++ "\""], "ACTIVE"⟩ :=
      (Option.some.inj hcreated).symm
    have hcond : GetRecordId.cond fqdn challenge created := by
      rw [hcr]; exact ⟨rfl, rfl, rfl, rfl⟩
    have hget := GetRecordId_body w dnsEndpoint zoneId projectId fqdn challenge body s log hdo
    rw [hrs] at hget
    have hscan : GetRecordId.scan fqdn challenge (pre ++ created :: post) =
        Result.ok created.Id :=
      (GetRecordId_scan_ok_iff _ _ _ _).mpr ⟨pre, created, post, rfl, hcond, hpre, rfl⟩
    refine ⟨hcr, ?_, ?_, ?_⟩
    · rw [hget, hscan]
    · rw [Cleanup, hget, hscan]
      simp only [CallApi_log, List.append_assoc, List.singleton_append]
    · intro hothers x hx hid
      rcases List.mem_append.mp hx with h | h
      · exact hothers x (List.mem_append_left _ h)
      · rcases List.mem_cons.mp h with h | h
        · exact absurd (by rw [h]) hid
        · exact hothers x (List.mem_append_right _ h)

/-- C7 for the FQDN and challenge of the end-to-end example of the spec. -/
theorem Present_Cleanup_agree_witness :
    ((∀ x ∈ "_acme-challenge.foo.example.org.".data, JSON.plainChar x) ∧
      (∀ x ∈ "tok".data, JSON.plainChar x)) ∧
    JSON.parseBytes (Present.payloadBytes (utf8Encode "_acme-challenge.foo.example.org.")
        (utf8Encode "tok")) =
      some (JSON.object [("name", JSON.string "_acme-challenge.foo.example.org."),
        ("type", JSON.string "TXT"),
        ("records", JSON.array [JSON.string ("\"" ++ "tok" ++ "\"")])]) ∧
    createdRecord (Present.payloadBytes (utf8Encode "_acme-challenge.foo.example.org.")
        (utf8Encode "tok")) "r-9" =
      some ⟨"r-9", "_acme-challenge.foo.example.org.", "TXT", ["\"tok\""], "ACTIVE"⟩ :=
  ⟨⟨by decide, by decide⟩,
    (Present_Cleanup_agree "_acme-challenge.foo.example.org." "tok" (by decide)
      (by decide)).2.1,
    rfl⟩

/-- C7 fails as stated, in four ways.  Backslash: for the challenge made of two
backslashes the body is a JSON document whose `records` array decodes to quote,
backslash, quote, while `GetRecordId` compares against quote, backslash, backslash,
quote, so the record created from the body is not found.  Quote: for a challenge or an
FQDN containing a double quote the body is no JSON document.  Bytes: for the challenge
that is the single byte 255, which is not valid UTF-8, the `records` array decodes to
quote, U+FFFD, quote, whose bytes differ from the quote, byte 255, quote that
`GetRecordId` compares against.  Earlier record: with the sample listing, in which
`r-2` carries the same name and value as the record `r-3` created from the body,
`Cleanup` deletes `r-2`, and `r-3` stays listed with that name/value pair. -/
theorem Present_payload_counterexample :
    (createdRecord (Present.payloadBytes (utf8Encode "_acme-challenge.example.com.")
          (utf8Encode "\\\\")) "r-1" =
        some ⟨"r-1", "_acme-challenge.example.com.", "TXT", ["\"\\\""], "ACTIVE"⟩ ∧
      "\"\\\"" ≠ "\"" ++ "\\\\" ++ "\"" ∧
      GetRecordId.scan "_acme-challenge.example.com." "\\\\"
          [⟨"r-1", "_acme-challenge.example.com.", "TXT", ["\"\\\""], "ACTIVE"⟩] =
        Result.error ("no active record '_acme-challenge.example.com.' of type 'TXT' " ++
          "with value '\\\\' found")) ∧
    (JSON.parseBytes (Present.payloadBytes (utf8Encode "_acme-challenge.example.com.")
          (utf8Encode "a\"b")) = none ∧
      JSON.parseBytes (Present.payloadBytes (utf8Encode "a\"b") (utf8Encode "abc123")) =
        none) ∧
    (createdRecord (Present.payloadBytes (utf8Encode "_acme-challenge.example.com.") [255])
          "r-1" =
        some ⟨"r-1", "_acme-challenge.example.com.", "TXT",
          [String.mk ['"', Char.ofNat 0xFFFD, '"']], "ACTIVE"⟩ ∧
      utf8Encode (String.mk ['"', Char.ofNat 0xFFFD, '"']) = [34, 239, 191, 189, 34] ∧
      utf8Encode "\"" ++ [255] ++ utf8Encode "\"" = [34, 255, 34] ∧
      utf8Encode (String.mk ['"', Char.ofNat 0xFFFD, '"']) ≠
        utf8Encode "\"" ++ [255] ++ utf8Encode "\"") ∧
    (createdRecord (Present.payloadBytes (utf8Encode "_acme-challenge.example.com.")
          (utf8Encode "abc123")) "r-3" =
        some ⟨"r-3", "_acme-challenge.example.com.", "TXT", ["\"abc123\""], "ACTIVE"⟩ ∧
      (sampleWorld.UnmarshalRecords "listing").Records =
        [⟨"r-0", "_acme-challenge.example.com.", "TXT", [], "ACTIVE"⟩,
          ⟨"r-1", "_acme-challenge.example.com.", "TXT", ["\"abc123\"", "\"other\""],
            "ACTIVE"⟩,
          ⟨"r-2", "_acme-challenge.example.com.", "TXT", ["\"abc123\""], "ACTIVE"⟩] ++
          ⟨"r-3", "_acme-challenge.example.com.", "TXT", ["\"abc123\""], "ACTIVE"⟩ :: [] ∧
      (Cleanup sampleWorld "https://dns" "z-2" "p-2" "_acme-challenge.example.com." "abc123"
          sampleSigner []).2 =
        [⟨"GET", "https://dns/v2/zones/z-2/recordsets", "p-2", "", sampleSigner⟩,
          ⟨"DELETE", "https://dns/v2/zones/z-2/recordsets/r-2", "p-2", "", sampleSigner⟩] ∧
      (sampleWorld.UnmarshalRecords "listing").Records.filter (fun r => decide (r.Id ≠ "r-2"))
        = [⟨"r-0", "_acme-challenge.example.com.", "TXT", [], "ACTIVE"⟩,
          ⟨"r-1", "_acme-challenge.example.com.", "TXT", ["\"abc123\"", "\"other\""],
            "ACTIVE"⟩,
          ⟨"r-3", "_acme-challenge.example.com.", "TXT", ["\"abc123\""], "ACTIVE"⟩]) :=
  ⟨⟨rfl, by decide, by decide⟩, ⟨rfl, rfl⟩, ⟨rfl, by decide, by decide, by decide⟩,
    ⟨rfl, rfl, by decide, by decide⟩⟩

end SbercloudDns
